import Mathlib

/-!
Verification of the SQL parser of this repository (sly-based lexer and
LALR grammar in `sql_parser/parser.py`, token definitions in
`mindsdb_sql/parser/lexer.py`).

The embedding below translates:
  * the lexer token patterns, in their exact definition order (sly builds one
    master regex whose alternatives are tried in class-definition order, with
    `re.IGNORECASE`; the first alternative matching at the current position
    wins);
  * the AST node shapes (the `sql_parser.ast` package is not part of the
    sources available here; those node shapes and the renderer are modelled
    from the specification, see the marked definitions);
  * the grammar productions and reduction actions of `SQLParser`, including
    `ensure_select_keyword_order` and the sly/yacc operator-precedence
    conflict resolution: a shift/reduce conflict between a rule whose
    rightmost terminal has precedence (assocR, levelR) and a lookahead token
    with (assocT, levelT) is resolved as reduce when
    `levelT < levelR` or (`levelT = levelR` and assocR is left), as a syntax
    error when `levelT = levelR` and assocR is nonassoc, and as shift
    otherwise; a token or rule without declared precedence defaults to
    (right, 0).
-/

/-- Boolean test: is `n` a prefix of `h` (character lists). -/
def isPrefB : List Char → List Char → Bool
  | [], _ => true
  | _ :: _, [] => false
  | a :: as, b :: bs => a == b && isPrefB as bs

/-- Boolean test: does `n` occur as a contiguous sublist of `h`. -/
def isSubB (n : List Char) : List Char → Bool
  | [] => n.isEmpty
  | c :: rest => isPrefB n (c :: rest) || isSubB n rest

/-- Substring test on strings (used to state "the error message contains ..."). -/
def strContains (needle hay : String) : Bool :=
  isSubB needle.toList hay.toList

/-- Concatenate strings with a separator, as Python's `", ".join(...)`. -/
def joinSep (sep : String) : List String → String
  | [] => ""
  | [x] => x
  | x :: y :: rest => x ++ sep ++ joinSep sep (y :: rest)

/-- Modelled from the spec: a Python float literal value.  The sources store
`float(text)`; floating point is modelled at the literal level as the digit
strings on either side of the dot (only equality with `int` and string
rendering of literals such as `3.0` matter for the verified claims). -/
structure FloatLit where
  whole : String
  frac : String
deriving DecidableEq, Repr

/-- Modelled from the spec: the literal value carried by a `Constant` node
(Python `int`, `float` or `str`, as produced by the `constant` grammar
rules). -/
inductive PyVal where
  | int (n : Int)
  | float (f : FloatLit)
  | str (s : String)
deriving DecidableEq, Repr

/-- Python `str()` of a literal value, as used inside f-string error
messages (`str(3.0) = "3.0"`, `str("x") = "x"`). -/
def PyVal.pyStr : PyVal → String
  | .int n => toString n
  | .float f => f.whole ++ "." ++ f.frac
  | .str s => s

/-- Test used by the LIMIT/OFFSET reduction actions:
`isinstance(value, int)`. -/
def PyVal.isInt : PyVal → Bool
  | .int _ => true
  | _ => false

/-- Modelled from the spec: the AST expression nodes (`Identifier`,
`Constant`, `BinaryOperation`, `UnaryOperation`, `Function` of the absent
`sql_parser.ast` package).  Every node carries the `alias` attribute set by
the `result_column AS identifier` rule and the `parentheses` flag set by the
`LPAREN expr RPAREN` rule. -/
inductive Expr where
  | ident (value : String) (al : Option String) (parentheses : Bool)
  | const (value : PyVal) (al : Option String) (parentheses : Bool)
  | binop (op : String) (left right : Expr) (al : Option String) (parentheses : Bool)
  | unop (op : String) (arg : Expr) (al : Option String) (parentheses : Bool)
  | func (op : String) (args : List Expr) (al : Option String) (parentheses : Bool)

/-- Attach an alias to a node (`col.alias = p.identifier.value`). -/
def Expr.setAlias (a : String) : Expr → Expr
  | .ident v _ p => .ident v (some a) p
  | .const v _ p => .const v (some a) p
  | .binop o l r _ p => .binop o l r (some a) p
  | .unop o x _ p => .unop o x (some a) p
  | .func o xs _ p => .func o xs (some a) p

/-- Set the `parentheses` flag (`p.expr.parentheses = True`). -/
def Expr.setParens : Expr → Expr
  | .ident v a _ => .ident v a true
  | .const v a _ => .const v a true
  | .binop o l r a _ => .binop o l r a true
  | .unop o x a _ => .unop o x a true
  | .func o xs a _ => .func o xs a true

/-- Test used by the WHERE/HAVING reduction actions:
`isinstance(expr, Operation)`.  Modelled from the spec: `Operation` is the
common base of `BinaryOperation`, `UnaryOperation` and `Function`
(`sql_parser.ast.operation`); a bare `Identifier` or `Constant` is not an
operation node. -/
def Expr.isOperation : Expr → Bool
  | .binop _ _ _ _ _ => true
  | .unop _ _ _ _ => true
  | .func _ _ _ _ => true
  | _ => false

/-- Test used by the GROUP BY reduction action: `isinstance(g, Identifier)`. -/
def Expr.isIdentifier : Expr → Bool
  | .ident _ _ _ => true
  | _ => false

/-- Modelled from the spec: an `ORDER BY` term (`OrderBy` node of the absent
ast package): a field, a direction (`'default'`, `'ASC'` or `'DESC'`) and an
optional `nulls` attribute holding the matched `NULLS FIRST`/`NULLS LAST`
token text. -/
structure OrderByItem where
  field : Expr
  direction : String
  nulls : Option String

/-- Modelled from the spec: the `FROM` clause contents: either a plain table
reference or a `Join` node (`left`, `right`, `join_type` string, optional
`condition`, `implicit` flag). -/
inductive FromTab where
  | table (t : Expr)
  | joined (join_type : String) (left right : Expr) (condition : Option Expr)
      (implicit : Bool)

/-- Modelled from the spec: the `Select` node.  Each optional clause attribute
starts unset (Python `None`); `where` is called `whereC` here because `where`
is reserved in Lean. -/
structure Select where
  targets : List Expr
  distinct : Bool := false
  from_table : Option FromTab := none
  whereC : Option Expr := none
  group_by : Option (List Expr) := none
  having : Option Expr := none
  order_by : Option (List OrderByItem) := none
  limit : Option Expr := none
  offset : Option Expr := none

/-- Modelled from the spec: rendering of a literal value inside
`render_to_text` (string constants render wrapped in double quotes, per the
round-trip examples; numbers render as their literal text). -/
def PyVal.render : PyVal → String
  | .int n => toString n
  | .float f => f.whole ++ "." ++ f.frac
  | .str s => "\"" ++ s ++ "\""

/-- Modelled from the spec: decoration shared by every node's rendering:
wrap in parentheses when the `parentheses` flag is set, then append
`AS alias` when an alias is attached. -/
def renderWrap (base : String) (al : Option String) (parens : Bool) : String :=
  let b := if parens then "(" ++ base ++ ")" else base
  match al with
  | none => b
  | some a => b ++ " AS " ++ a

mutual

/-- Modelled from the spec: `render_to_text` for expression nodes: operators
render with a single space around the operator token; function calls render
as `name(arg, arg)`. -/
def Expr.render : Expr → String
  | .ident v a p => renderWrap v a p
  | .const v a p => renderWrap v.render a p
  | .binop o l r a p => renderWrap (l.render ++ " " ++ o ++ " " ++ r.render) a p
  | .unop o x a p => renderWrap (o ++ " " ++ x.render) a p
  | .func o xs a p => renderWrap (o ++ "(" ++ joinSep ", " (renderList xs) ++ ")") a p

/-- Render a list of expressions. -/
def renderList : List Expr → List String
  | [] => []
  | x :: xs => x.render :: renderList xs

end

mutual

/-- Modelled from the spec: `render_to_tree` for expression nodes: a
structural dump that carries all semantic content, including the
`parentheses` flag and aliases. -/
def Expr.tree : Expr → String
  | .ident v a p =>
      "Identifier(" ++ v ++ "," ++ toString a ++ "," ++ toString p ++ ")"
  | .const v a p =>
      "Constant(" ++ reprStr v ++ "," ++ toString a ++ "," ++ toString p ++ ")"
  | .binop o l r a p =>
      "BinaryOperation(" ++ o ++ "," ++ l.tree ++ "," ++ r.tree ++ "," ++
        toString a ++ "," ++ toString p ++ ")"
  | .unop o x a p =>
      "UnaryOperation(" ++ o ++ "," ++ x.tree ++ "," ++ toString a ++ "," ++
        toString p ++ ")"
  | .func o xs a p =>
      "Function(" ++ o ++ ",[" ++ joinSep "," (treeList xs) ++ "]," ++
        toString a ++ "," ++ toString p ++ ")"

/-- Tree dumps of a list of expressions. -/
def treeList : List Expr → List String
  | [] => []
  | x :: xs => x.tree :: treeList xs

end

/-- Modelled from the spec: `render_to_text` for the FROM clause: an implicit
comma join renders as `left, right`, an explicit join as
`left JOINTYPE right [ON condition]`. -/
def FromTab.render : FromTab → String
  | .table t => t.render
  | .joined jt l r cond _ =>
      let base := l.render ++ " " ++ jt ++ " " ++ r.render
      match cond with
      | none => base
      | some c => base ++ " ON " ++ c.render

/-- Render of the FROM clause honouring the implicit flag. -/
def FromTab.renderFull : FromTab → String
  | .table t => t.render
  | .joined jt l r cond imp =>
      if imp then l.render ++ ", " ++ r.render
      else FromTab.render (.joined jt l r cond imp)

/-- Tree dump for the FROM clause. -/
def FromTab.tree : FromTab → String
  | .table t => "Table(" ++ t.tree ++ ")"
  | .joined jt l r cond imp =>
      "Join(" ++ jt ++ "," ++ l.tree ++ "," ++ r.tree ++ "," ++
        (match cond with | none => "None" | some c => c.tree) ++ "," ++
        toString imp ++ ")"

/-- Modelled from the spec: rendering of one ORDER BY term: the direction is
omitted when it is `'default'`; the `nulls` text follows when present. -/
def OrderByItem.render (t : OrderByItem) : String :=
  t.field.render ++
    (if t.direction == "default" then "" else " " ++ t.direction) ++
    (match t.nulls with | none => "" | some n => " " ++ n)

/-- Tree dump of one ORDER BY term. -/
def OrderByItem.tree (t : OrderByItem) : String :=
  "OrderBy(" ++ t.field.tree ++ "," ++ t.direction ++ "," ++
    toString t.nulls ++ ")"

/-- Modelled from the spec: `render_to_text` for `Select`: clauses render in
canonical order and are omitted entirely when unset. -/
def Select.render (s : Select) : String :=
  "SELECT " ++ (if s.distinct then "DISTINCT " else "") ++
    joinSep ", " (renderList s.targets) ++
    (match s.from_table with | none => "" | some ft => " FROM " ++ ft.renderFull) ++
    (match s.whereC with | none => "" | some w => " WHERE " ++ w.render) ++
    (match s.group_by with
     | none => ""
     | some g => " GROUP BY " ++ joinSep ", " (renderList g)) ++
    (match s.having with | none => "" | some h => " HAVING " ++ h.render) ++
    (match s.order_by with
     | none => ""
     | some o => " ORDER BY " ++ joinSep ", " (o.map OrderByItem.render)) ++
    (match s.limit with | none => "" | some l => " LIMIT " ++ l.render) ++
    (match s.offset with | none => "" | some o => " OFFSET " ++ o.render)

/-- Modelled from the spec: `render_to_tree` for `Select`: the structural
form compared for round-trip equality. -/
def Select.tree (s : Select) : String :=
  "Select(targets=[" ++ joinSep "," (treeList s.targets) ++ "],distinct=" ++
    toString s.distinct ++ ",from=" ++
    (match s.from_table with | none => "None" | some ft => ft.tree) ++
    ",where=" ++ (match s.whereC with | none => "None" | some w => w.tree) ++
    ",group_by=" ++
    (match s.group_by with
     | none => "None"
     | some g => "[" ++ joinSep "," (treeList g) ++ "]") ++
    ",having=" ++ (match s.having with | none => "None" | some h => h.tree) ++
    ",order_by=" ++
    (match s.order_by with
     | none => "None"
     | some o => "[" ++ joinSep "," (o.map OrderByItem.tree) ++ "]") ++
    ",limit=" ++ (match s.limit with | none => "None" | some l => l.tree) ++
    ",offset=" ++ (match s.offset with | none => "None" | some o => o.tree) ++
    ")"

/-- Names of the seven SELECT clauses handled by
`ensure_select_keyword_order` (the source uses the literal strings; an
enumeration is used here and `CK.name` recovers the exact strings that appear
in the error messages). -/
inductive CK where
  | FROM | WHERE | GROUPBY | HAVING | ORDERBY | LIMIT | OFFSET
deriving DecidableEq, Repr

/-- Clause name string as it appears in `ensure_select_keyword_order`. -/
def CK.name : CK → String
  | .FROM => "FROM"
  | .WHERE => "WHERE"
  | .GROUPBY => "GROUP BY"
  | .HAVING => "HAVING"
  | .ORDERBY => "ORDER BY"
  | .LIMIT => "LIMIT"
  | .OFFSET => "OFFSET"

/-- Errors raised during lexing or parsing.  `ParsingException` carries a
formatted message in the source; the constructors here keep the data and
`PErr.message` rebuilds the exact f-string text. -/
inductive PErr where
  | illegalChar (c : Char)
  | fuelOut
  | synTok (ty tval : String)
  | synEof
  | dupClause (op : CK)
  | requiresClause (op req : CK)
  | mustGoAfter (op next : CK)
  | limitNotInt (v : PyVal)
  | offsetNotInt (v : PyVal)
  | whereNotOp (e : Expr)
  | havingNotOp (e : Expr)
  | groupByNotIds (es : List Expr)

/-- Exact message text of each error, as formatted by the source's f-strings
(`sql_parser/parser.py`). -/
def PErr.message : PErr → String
  | .illegalChar c => "Illegal character " ++ String.mk [c]
  | .fuelOut => "internal fuel exhausted"
  | .synTok ty tval => "Syntax error at token " ++ ty ++ ": \"" ++ tval ++ "\""
  | .synEof => "Syntax error at EOF"
  | .dupClause op =>
      "Duplicate " ++ op.name ++ " clause. Only one " ++ op.name ++
        " allowed per SELECT."
  | .requiresClause op req => op.name ++ " requires " ++ req.name
  | .mustGoAfter op next => op.name ++ " must go after " ++ next.name
  | .limitNotInt v => "LIMIT must be an integer value, got: " ++ v.pyStr
  | .offsetNotInt v => "OFFSET must be an integer value, got: " ++ v.pyStr
  | .whereNotOp e =>
      "WHERE must contain an operation that evaluates to a boolean, got: " ++
        e.render
  | .havingNotOp e =>
      "HAVING must contain an operation that evaluates to a boolean, got: " ++
        e.render
  | .groupByNotIds es =>
      "GROUP BY must contain a list identifiers, got: [" ++
        joinSep ", " (renderList es) ++ "]"

/-- Value attached to a token: sly keeps the matched text as `t.value` for
plain patterns; the `INTEGER`/`FLOAT`/`STRING` pattern functions replace it
with the converted value. -/
inductive TokVal where
  | raw
  | int (n : Int)
  | float (f : FloatLit)
  | str (s : String)
deriving DecidableEq, Repr

/-- A lexer token: sly's `t.type` (here `kind`), the matched text, and the
converted value. -/
structure Token where
  kind : String
  text : String
  val : TokVal
deriving DecidableEq, Repr

/-- Python `f"{p.value}"` of a token, used by the parser's `error` method. -/
def Token.valueText (t : Token) : String :=
  match t.val with
  | .raw => t.text
  | .int n => toString n
  | .float f => f.whole ++ "." ++ f.frac
  | .str s => s

/-- Word character of the regex `\b` boundary (Python `\w`: letters, digits,
underscore). -/
def wordChar (c : Char) : Bool := c.isAlphanum || c == '_'

/-- Character allowed in a bare identifier segment: `[a-zA-Z_$0-9]`. -/
def idChar (c : Char) : Bool := c.isAlphanum || c == '_' || c == '$'

/-- Backquote character. -/
def backquote : Char := Char.ofNat 96

/-- Single-quote character. -/
def squoteChar : Char := Char.ofNat 39

/-- Characters of the lexer's `ignore` string: space, tab, newline, carriage
return. -/
def ignoreChar (c : Char) : Bool :=
  c == ' ' || c == '\t' || c == '\n' || c == '\r'

/-- One token pattern of the lexer: either a keyword `\bWORD\b` (possibly a
two-word phrase) or a literal punctuation/operator pattern. -/
inductive LexPat where
  | word (kind w : String)
  | lit (kind l : String)

/-- Case-insensitive match of a keyword's characters (`re.IGNORECASE`):
returns the matched source text and the remainder. -/
def matchWordCI : List Char → List Char → Option (List Char × List Char)
  | [], cs => some ([], cs)
  | _ :: _, [] => none
  | w :: ws, c :: cs =>
    if c.toUpper = w then
      match matchWordCI ws cs with
      | some (t, r) => some (c :: t, r)
      | none => none
    else none

/-- Exact match of a literal pattern's characters. -/
def matchLit : List Char → List Char → Option (List Char × List Char)
  | [], cs => some ([], cs)
  | _ :: _, [] => none
  | l :: ls, c :: cs =>
    if c = l then
      match matchLit ls cs with
      | some (t, r) => some (c :: t, r)
      | none => none
    else none

/-- Boundary `\b` before a keyword: the previous character of the input (if
any) must not be a word character. -/
def prevOk : Option Char → Bool
  | none => true
  | some c => !(wordChar c)

/-- Boundary `\b` after a keyword: the next character (if any) must not be a
word character. -/
def afterOk : List Char → Bool
  | [] => true
  | c :: _ => !(wordChar c)

/-- Try one pattern at the current position. -/
def runPat (p : LexPat) (prev : Option Char) (cs : List Char) :
    Option (Token × List Char) :=
  match p with
  | .word k w =>
    if prevOk prev then
      match matchWordCI w.toList cs with
      | some (txt, rest) =>
          if afterOk rest then
            some ({ kind := k, text := String.mk txt, val := .raw }, rest)
          else none
      | none => none
    else none
  | .lit k l =>
    match matchLit l.toList cs with
    | some (txt, rest) =>
        some ({ kind := k, text := String.mk txt, val := .raw }, rest)
    | none => none

/-- Try the string-defined patterns in definition order; the first match wins
(Python regex alternation is first-match, not longest-match). -/
def tryTable : List LexPat → Option Char → List Char →
    Option (Token × List Char)
  | [], _, _ => none
  | p :: ps, prev, cs =>
    match runPat p prev cs with
    | some r => some r
    | none => tryTable ps prev cs

/-- One bare identifier segment, regex `[a-zA-Z_$0-9]*[a-zA-Z_$]+[a-zA-Z_$0-9]*`:
greedily the maximal run of identifier characters, failing when the run is
empty or consists solely of digits. -/
def bareSeg (cs : List Char) : Option (List Char × List Char) :=
  let run := cs.takeWhile idChar
  if run.isEmpty then none
  else if run.all (fun c => c.isDigit) then none
  else some (run, cs.drop run.length)

/-- One back-quoted identifier segmentationless, regex `` `[^`]+` ``. -/
def quotedSeg (cs : List Char) : Option (List Char × List Char) :=
  match cs with
  | c :: rest =>
    if c = backquote then
      let inner := rest.takeWhile (fun d => !(d == backquote))
      if inner.isEmpty then none
      else
        match rest.drop inner.length with
        | d :: rest2 =>
          if d = backquote then some (c :: (inner ++ [d]), rest2) else none
        | [] => none
    else none
  | [] => none

/-- One identifier segment: bare segment first, back-quoted second (the
regex alternation order). -/
def idSeg (cs : List Char) : Option (List Char × List Char) :=
  match bareSeg cs with
  | some r => some r
  | none => quotedSeg cs

/-- Greedy `(?:\.(segment))*` continuation of a dotted identifier. -/
def idDots : Nat → List Char → List Char → List Char × List Char
  | 0, acc, cs => (acc, cs)
  | fuel + 1, acc, cs =>
    match cs with
    | '.' :: rest =>
      match idSeg rest with
      | some (seg, rest2) => idDots fuel (acc ++ '.' :: seg) rest2
      | none => (acc, cs)
    | _ => (acc, cs)

/-- The `ID` pattern function: a dotted sequence of identifier segments;
`t.value` stays the matched text. -/
def matchID (cs : List Char) : Option (Token × List Char) :=
  match idSeg cs with
  | some (seg, rest) =>
    let dr := idDots rest.length seg rest
    some ({ kind := "ID", text := String.mk dr.1, val := .raw }, dr.2)
  | none => none

/-- The `FLOAT` pattern function, regex `\d+\.\d+`; the value is the float
literal. -/
def matchFLOAT (cs : List Char) : Option (Token × List Char) :=
  let d1 := cs.takeWhile Char.isDigit
  if d1.isEmpty then none
  else
    match cs.drop d1.length with
    | '.' :: rest =>
      let d2 := rest.takeWhile Char.isDigit
      if d2.isEmpty then none
      else
        some ({ kind := "FLOAT", text := String.mk (d1 ++ '.' :: d2),
                val := .float ⟨String.mk d1, String.mk d2⟩ },
              rest.drop d2.length)
    | _ => none

/-- Decimal value of a digit run. -/
def digitsToNat (ds : List Char) : Nat :=
  ds.foldl (fun acc c => acc * 10 + (c.toNat - 48)) 0

/-- The `INTEGER` pattern function, regex `\d+`; the value is `int(text)`. -/
def matchINTEGER (cs : List Char) : Option (Token × List Char) :=
  let d := cs.takeWhile Char.isDigit
  if d.isEmpty then none
  else
    some ({ kind := "INTEGER", text := String.mk d,
            val := .int (Int.ofNat (digitsToNat d)) }, cs.drop d.length)

/-- One quoted string alternative (`"[^"]*"` or `'[^']*'`); the value is the
content with the delimiting quotes stripped. -/
def matchQuoted (q : Char) (cs : List Char) : Option (Token × List Char) :=
  match cs with
  | c :: rest =>
    if c = q then
      let inner := rest.takeWhile (fun d => !(d == q))
      match rest.drop inner.length with
      | d :: rest2 =>
        if d = q then
          some ({ kind := "STRING", text := String.mk (c :: (inner ++ [d])),
                  val := .str (String.mk inner) }, rest2)
        else none
      | [] => none
    else none
  | [] => none

/-- The `STRING` pattern function: double-quoted alternative first, then
single-quoted. -/
def matchSTRING (cs : List Char) : Option (Token × List Char) :=
  match matchQuoted '"' cs with
  | some r => some r
  | none => matchQuoted squoteChar cs

set_option maxHeartbeats 1000000 in
/-- Token patterns of `SQLLexer` (`mindsdb_sql/parser/lexer.py`) in their
exact class-definition order (string-defined patterns; the pattern
functions `ID`, `FLOAT`, `INTEGER`, `STRING` are defined after all of these
and are tried last, in that order, by `nextToken`). -/
def lexTable : List LexPat := [
  .word "SET" "SET", .word "AUTOCOMMIT" "AUTOCOMMIT", .word "START" "START",
  .word "TRANSACTION" "TRANSACTION", .word "COMMIT" "COMMIT",
  .word "ROLLBACK" "ROLLBACK", .word "EXPLAIN" "EXPLAIN",
  .word "ALTER" "ALTER", .word "USE" "USE", .word "DESCRIBE" "DESCRIBE",
  .word "SHOW" "SHOW", .word "SCHEMAS" "SCHEMAS",
  .word "DATABASES" "DATABASES", .word "TABLES" "TABLES",
  .word "TABLE" "TABLE", .word "FULL" "FULL", .word "VARIABLES" "VARIABLES",
  .word "SESSION" "SESSION", .word "STATUS" "STATUS",
  .word "GLOBAL" "GLOBAL", .word "PROCEDURE" "PROCEDURE",
  .word "FUNCTION" "FUNCTION", .word "INDEX" "INDEX",
  .word "CREATE" "CREATE", .word "WARNINGS" "WARNINGS",
  .word "ENGINES" "ENGINES", .word "CHARSET" "CHARSET",
  .word "CHARACTER" "CHARACTER", .word "COLLATION" "COLLATION",
  .word "PLUGINS" "PLUGINS",
  .word "ON" "ON", .word "ASC" "ASC", .word "DESC" "DESC",
  .word "NULLS_FIRST" "NULLS FIRST", .word "NULLS_LAST" "NULLS LAST",
  .word "WITH" "WITH", .word "SELECT" "SELECT",
  .word "DISTINCT" "DISTINCT", .word "FROM" "FROM", .word "AS" "AS",
  .word "WHERE" "WHERE", .word "LIMIT" "LIMIT", .word "OFFSET" "OFFSET",
  .word "GROUP_BY" "GROUP BY", .word "HAVING" "HAVING",
  .word "ORDER_BY" "ORDER BY",
  .lit "STAR" "*",
  .word "JOIN" "JOIN", .word "INNER" "INNER", .word "OUTER" "OUTER",
  .word "CROSS" "CROSS", .word "LEFT" "LEFT", .word "RIGHT" "RIGHT",
  .word "UNION" "UNION", .word "ALL" "ALL",
  .lit "DOT" ".", .lit "COMMA" ",", .lit "LPAREN" "(", .lit "RPAREN" ")",
  .lit "PARAMETER" "?",
  .lit "PLUS" "+", .lit "MINUS" "-", .lit "DIVIDE" "/", .lit "MODULO" "%",
  .lit "EQUALS" "=", .lit "NEQUALS" "!=", .lit "GEQ" ">=",
  .lit "GREATER" ">", .lit "LEQ" "<=", .lit "LESS" "<",
  .word "AND" "AND", .word "OR" "OR", .word "NOT" "NOT", .word "IS" "IS",
  .word "LIKE" "LIKE", .word "IN" "IN", .word "CAST" "CAST",
  .lit "CONCAT" "||",
  .word "BETWEEN" "BETWEEN", .word "WINDOW" "WINDOW",
  .word "NULL" "NULL", .word "TRUE" "TRUE", .word "FALSE" "FALSE"]

/-- Modelled from the spec: the lexer module actually imported by
`sql_parser/parser.py` (`sql_parser/lexer.py`) is not among the available
sources.  Its token set is modelled as exactly the token kinds the grammar
of `SQLParser` references, with each keyword as a `\b`-delimited
case-insensitive pattern in the style of the available lexer: in particular
the join keywords `INNER JOIN`, `LEFT JOIN`, `RIGHT JOIN`, `FULL JOIN` and
the binary `IS NOT` are single two-word tokens (the grammar references the
kinds `INNER_JOIN`, `LEFT_JOIN`, `RIGHT_JOIN`, `FULL_JOIN`, `ISNOT`), and
words such as `table` that the repository's tests use as plain identifiers
are not reserved. -/
def parserLexTable : List LexPat := [
  .word "ON" "ON", .word "ASC" "ASC", .word "DESC" "DESC",
  .word "NULLS_FIRST" "NULLS FIRST", .word "NULLS_LAST" "NULLS LAST",
  .word "SELECT" "SELECT", .word "DISTINCT" "DISTINCT",
  .word "FROM" "FROM", .word "AS" "AS", .word "WHERE" "WHERE",
  .word "LIMIT" "LIMIT", .word "OFFSET" "OFFSET",
  .word "GROUP_BY" "GROUP BY", .word "HAVING" "HAVING",
  .word "ORDER_BY" "ORDER BY",
  .lit "STAR" "*",
  .word "INNER_JOIN" "INNER JOIN", .word "LEFT_JOIN" "LEFT JOIN",
  .word "RIGHT_JOIN" "RIGHT JOIN", .word "FULL_JOIN" "FULL JOIN",
  .lit "DOT" ".", .lit "COMMA" ",", .lit "LPAREN" "(", .lit "RPAREN" ")",
  .lit "PLUS" "+", .lit "MINUS" "-", .lit "DIVIDE" "/", .lit "MODULO" "%",
  .lit "EQUALS" "=", .lit "NEQUALS" "!=", .lit "GEQ" ">=",
  .lit "GREATER" ">", .lit "LEQ" "<=", .lit "LESS" "<",
  .word "AND" "AND", .word "OR" "OR", .word "NOT" "NOT",
  .word "ISNOT" "IS NOT", .word "IS" "IS",
  .word "LIKE" "LIKE", .word "IN" "IN"]

/-- Find the first token at the current position: string-defined patterns in
definition order, then the pattern functions `ID`, `FLOAT`, `INTEGER`,
`STRING` in definition order. -/
def nextToken (pats : List LexPat) (prev : Option Char) (cs : List Char) :
    Option (Token × List Char) :=
  match tryTable pats prev cs with
  | some r => some r
  | none =>
    match matchID cs with
    | some r => some r
    | none =>
      match matchFLOAT cs with
      | some r => some r
      | none =>
        match matchINTEGER cs with
        | some r => some r
        | none => matchSTRING cs

/-- Tokenization loop: skip ignore characters, emit the first matching token,
fail with the default sly `LexError` on an unmatched character.  The previous
character is tracked for the `\b` look-behind. -/
def tokenizeAux (pats : List LexPat) : Nat → Option Char → List Char →
    Except PErr (List Token)
  | 0, _, _ => .error .fuelOut
  | _ + 1, _, [] => .ok []
  | fuel + 1, prev, c :: rest =>
    if ignoreChar c then tokenizeAux pats fuel (some c) rest
    else
      match nextToken pats prev (c :: rest) with
      | some (tok, rest2) =>
        match tokenizeAux pats fuel tok.text.toList.getLast? rest2 with
        | .ok ts => .ok (tok :: ts)
        | .error e => .error e
      | none => .error (.illegalChar c)

/-- Tokenize a whole input string. -/
def tokenize (pats : List LexPat) (s : String) : Except PErr (List Token) :=
  tokenizeAux pats (s.length + 1) none s.toList

/-- Truthiness of `op_to_attr[operation]` in `ensure_select_keyword_order`:
whether the clause attribute is already set on the `Select`. -/
def isSetClause (s : Select) (op : CK) : Bool :=
  match op with
  | .FROM => s.from_table.isSome
  | .WHERE => s.whereC.isSome
  | .GROUPBY => s.group_by.isSome
  | .HAVING => s.having.isSome
  | .ORDERBY => s.order_by.isSome
  | .LIMIT => s.limit.isSome
  | .OFFSET => s.offset.isSome

/-- The `requirements` table of `ensure_select_keyword_order`. -/
def requirementsOf : CK → List CK
  | .WHERE => [.FROM]
  | .GROUPBY => [.FROM]
  | .ORDERBY => [.FROM]
  | .HAVING => [.GROUPBY]
  | _ => []

/-- The `precedence` list of `ensure_select_keyword_order`: the canonical
clause order. -/
def clausePrec : List CK :=
  [.FROM, .WHERE, .GROUPBY, .HAVING, .ORDERBY, .LIMIT, .OFFSET]

/-- Translation of `ensure_select_keyword_order(select, operation)`:
duplicate check, then missing-prerequisite check (first unmet requirement),
then out-of-order check (first clause at or after `op` in canonical order
that is already set). -/
def ensureSelectKeywordOrder (s : Select) (op : CK) : Except PErr Unit :=
  if isSetClause s op then .error (.dupClause op)
  else
    match (requirementsOf op).find? (fun req => !isSetClause s req) with
    | some req => .error (.requiresClause op req)
    | none =>
      match (clausePrec.drop (clausePrec.findIdx (fun c => c == op))).find?
          (fun nx => isSetClause s nx) with
      | some nx => .error (.mustGoAfter op nx)
      | none => .ok ()

/-- Reduction action of `select FROM from_table`. -/
def attachFrom (s : Select) (ft : FromTab) : Except PErr Select := do
  ensureSelectKeywordOrder s .FROM
  .ok { s with from_table := some ft }

/-- Reduction action of `select WHERE expr`: the operand must be an
operation node. -/
def attachWhere (s : Select) (e : Expr) : Except PErr Select := do
  ensureSelectKeywordOrder s .WHERE
  if e.isOperation then .ok { s with whereC := some e }
  else .error (.whereNotOp e)

/-- Reduction action of `select GROUP_BY expr_list`: every element must be
an identifier. -/
def attachGroupBy (s : Select) (es : List Expr) : Except PErr Select := do
  ensureSelectKeywordOrder s .GROUPBY
  if es.all Expr.isIdentifier then .ok { s with group_by := some es }
  else .error (.groupByNotIds es)

/-- Reduction action of `select HAVING expr`: the operand must be an
operation node. -/
def attachHaving (s : Select) (e : Expr) : Except PErr Select := do
  ensureSelectKeywordOrder s .HAVING
  if e.isOperation then .ok { s with having := some e }
  else .error (.havingNotOp e)

/-- Reduction action of `select ORDER_BY ordering_terms`. -/
def attachOrderBy (s : Select) (ts : List OrderByItem) : Except PErr Select := do
  ensureSelectKeywordOrder s .ORDERBY
  .ok { s with order_by := some ts }

/-- Reduction action of `select LIMIT constant`: the constant's value must
be a Python `int`. -/
def attachLimit (s : Select) (v : PyVal) : Except PErr Select := do
  ensureSelectKeywordOrder s .LIMIT
  if v.isInt then .ok { s with limit := some (.const v none false) }
  else .error (.limitNotInt v)

/-- Reduction action of `select OFFSET constant`: the constant's value must
be a Python `int`. -/
def attachOffset (s : Select) (v : PyVal) : Except PErr Select := do
  ensureSelectKeywordOrder s .OFFSET
  if v.isInt then .ok { s with offset := some (.const v none false) }
  else .error (.offsetNotInt v)

/-- Associativity classes of the sly precedence declaration. -/
inductive Assoc where
  | leftA | rightA | nonA
deriving DecidableEq, Repr

/-- The `precedence` table of `SQLParser`:
`(nonassoc, LESS LEQ GREATER GEQ EQUALS NEQUALS)` at level 1,
`(left, PLUS MINUS)` at level 2, `(left, STAR DIVIDE)` at level 3,
`(right, UMINUS UNOT)` at level 4.  Every other token (including `MODULO`,
`AND`, `OR`, `NOT`, `IS`, `ISNOT`, `LIKE`, `IN`) has no declared precedence
and gets sly's default `(right, 0)`. -/
def tokPrec (kind : String) : Nat × Assoc :=
  if kind == "LESS" || kind == "LEQ" || kind == "GREATER" || kind == "GEQ"
      || kind == "EQUALS" || kind == "NEQUALS" then (1, .nonA)
  else if kind == "PLUS" || kind == "MINUS" then (2, .leftA)
  else if kind == "STAR" || kind == "DIVIDE" then (3, .leftA)
  else (0, .rightA)

/-- Token kinds accepted by the `expr OP expr` productions, in rule order. -/
def binopKinds : List String :=
  ["PLUS", "MINUS", "STAR", "DIVIDE", "MODULO", "EQUALS", "NEQUALS", "GEQ",
   "GREATER", "LEQ", "LESS", "AND", "OR", "NOT", "ISNOT", "IS", "LIKE", "IN"]

/-- Whether a token kind is a binary operator of the expression grammar. -/
def isBinopKind (k : String) : Bool := binopKinds.contains k

/-- The parser's `error` method: `Syntax error at token TY: "VAL"` at a
token, `Syntax error at EOF` at end of input. -/
def synErrAt : List Token → PErr
  | [] => .synEof
  | t :: _ => .synTok t.kind t.valueText

/-- Constant value of a literal token (`constant` productions:
`Constant(int(p.INTEGER))`, `Constant(float(p.FLOAT))`,
`Constant(str(p.STRING))`). -/
def tokConst (t : Token) : Option PyVal :=
  match t.val with
  | .int n => some (.int n)
  | .float f => some (.float f)
  | .str s => some (.str s)
  | .raw => none

mutual

/-- Parse one atomic `expr`: `ID LPAREN expr_list RPAREN` (function call,
preferred by the LALR shift over reducing the bare `ID`), `LPAREN expr
RPAREN` (sets the parentheses flag), `identifier` (`ID` or `STAR`), or
`constant`. -/
def parseAtom : Nat → List Token → Except PErr (Expr × List Token)
  | 0, _ => .error .fuelOut
  | fuel + 1, ts =>
    match ts with
    | t :: rest =>
      if t.kind == "ID" then
        match rest with
        | l :: rest2 =>
          if l.kind == "LPAREN" then
            match parseExprList fuel rest2 with
            | .ok (args, rest3) =>
              match rest3 with
              | r :: rest4 =>
                if r.kind == "RPAREN" then
                  .ok (.func t.text args none false, rest4)
                else .error (synErrAt rest3)
              | [] => .error .synEof
            | .error e => .error e
          else .ok (.ident t.text none false, rest)
        | [] => .ok (.ident t.text none false, rest)
      else if t.kind == "STAR" then .ok (.ident t.text none false, rest)
      else if t.kind == "INTEGER" || t.kind == "FLOAT"
          || t.kind == "STRING" then
        match tokConst t with
        | some v => .ok (.const v none false, rest)
        | none => .error (synErrAt ts)
      else if t.kind == "LPAREN" then
        match parseExpr fuel none rest with
        | .ok (e, rest2) =>
          match rest2 with
          | r :: rest3 =>
            if r.kind == "RPAREN" then .ok (e.setParens, rest3)
            else .error (synErrAt rest2)
          | [] => .error .synEof
        | .error e => .error e
      else .error (synErrAt ts)
    | [] => .error .synEof

/-- Parse a unary prefix chain: `MINUS expr %prec UMINUS` and
`NOT expr %prec UNOT`; level-4 right precedence means the unary rule always
reduces before any binary operator, so the operand is exactly the next
unary/atom. -/
def parseUnary : Nat → List Token → Except PErr (Expr × List Token)
  | 0, _ => .error .fuelOut
  | fuel + 1, ts =>
    match ts with
    | t :: rest =>
      if t.kind == "MINUS" || t.kind == "NOT" then
        match parseUnary fuel rest with
        | .ok (x, rest2) => .ok (.unop t.text x none false, rest2)
        | .error e => .error e
      else parseAtom fuel ts
    | [] => .error .synEof

/-- Parse an `expr` given the precedence of the operator rule below the
current position (`none` at the bottom). -/
def parseExpr : Nat → Option (Nat × Assoc) → List Token →
    Except PErr (Expr × List Token)
  | 0, _, _ => .error .fuelOut
  | fuel + 1, prev, ts =>
    match parseUnary fuel ts with
    | .ok (left, rest) => parseBinLoop fuel prev left rest
    | .error e => .error e

/-- The shift/reduce engine for `expr OP expr` conflicts, replicating
sly/yacc resolution: against the pending rule precedence `prev`, reduce when
the lookahead level is lower (or equal with a left-associative rule), raise
a syntax error when equal with a nonassoc rule, shift otherwise (also when
either side has no declared precedence, via the `(right, 0)` default). -/
def parseBinLoop : Nat → Option (Nat × Assoc) → Expr → List Token →
    Except PErr (Expr × List Token)
  | 0, _, _, _ => .error .fuelOut
  | fuel + 1, prev, left, ts =>
    match ts with
    | t :: rest =>
      if isBinopKind t.kind then
        let tp := tokPrec t.kind
        let rp := prev.getD (0, Assoc.rightA)
        if prev.isSome
            && (tp.1 < rp.1 || (tp.1 == rp.1 && rp.2 == Assoc.leftA)) then
          .ok (left, ts)
        else if prev.isSome && tp.1 == rp.1 && rp.2 == Assoc.nonA then
          .error (synErrAt ts)
        else
          match parseExpr fuel (some tp) rest with
          | .ok (right, rest2) =>
              parseBinLoop fuel prev (.binop t.text left right none false) rest2
          | .error e => .error e
      else .ok (left, ts)
    | [] => .ok (left, [])

/-- Parse an `expr_list` (`enumeration`): one or more comma-separated
expressions; a single expression still yields a one-element list. -/
def parseExprList : Nat → List Token → Except PErr (List Expr × List Token)
  | 0, _ => .error .fuelOut
  | fuel + 1, ts =>
    match parseExpr fuel none ts with
    | .ok (e, rest) => parseExprListRest fuel [e] rest
    | .error e => .error e

/-- Comma-continuation of an `enumeration`. -/
def parseExprListRest : Nat → List Expr → List Token →
    Except PErr (List Expr × List Token)
  | 0, _, _ => .error .fuelOut
  | fuel + 1, acc, ts =>
    match ts with
    | t :: rest =>
      if t.kind == "COMMA" then
        match parseExpr fuel none rest with
        | .ok (e, rest2) => parseExprListRest fuel (acc ++ [e]) rest2
        | .error e => .error e
      else .ok (acc, ts)
    | [] => .ok (acc, [])

end

/-- Parse the `identifier` nonterminal (`ID` or `STAR`). -/
def parseIdentTok : List Token → Except PErr (Expr × List Token)
  | t :: rest =>
    if t.kind == "ID" || t.kind == "STAR" then
      .ok (.ident t.text none false, rest)
    else .error (synErrAt (t :: rest))
  | [] => .error .synEof

/-- Parse the `constant` nonterminal (`INTEGER`, `FLOAT` or `STRING`). -/
def parseConstantTok : List Token → Except PErr (PyVal × List Token)
  | t :: rest =>
    match tokConst t with
    | some v => .ok (v, rest)
    | none => .error (synErrAt (t :: rest))
  | [] => .error .synEof

/-- Join keyword token kinds accepted by `join_clause`. -/
def joinKinds : List String :=
  ["LEFT_JOIN", "RIGHT_JOIN", "INNER_JOIN", "FULL_JOIN"]

/-- Parse the `from_table` nonterminal: a single table reference, an
explicit join (optionally with `ON expr`), or an implicit comma join
(`join_type='INNER JOIN'`, `implicit=True`, no condition). -/
def parseFromTable (fuel : Nat) (ts : List Token) :
    Except PErr (FromTab × List Token) := do
  let (t1, rest) ← parseIdentTok ts
  match rest with
  | j :: rest2 =>
    if joinKinds.contains j.kind then do
      let (t2, rest3) ← parseIdentTok rest2
      match rest3 with
      | o :: rest4 =>
        if o.kind == "ON" then do
          let (c, rest5) ← parseExpr fuel none rest4
          .ok (.joined j.text t1 t2 (some c) false, rest5)
        else .ok (.joined j.text t1 t2 none false, rest3)
      | [] => .ok (.joined j.text t1 t2 none false, rest3)
    else if j.kind == "COMMA" then do
      let (t2, rest3) ← parseIdentTok rest2
      .ok (.joined "INNER JOIN" t1 t2 none true, rest3)
    else .ok (.table t1, rest)
  | [] => .ok (.table t1, rest)

/-- Suffixes of `ordering_term`: the optional trailing `NULLS FIRST` /
`NULLS LAST` tokens (the grammar allows repetition; the last one wins). -/
def nullsLoop : Option String → List Token → Option String × List Token
  | acc, t :: rest =>
    if t.kind == "NULLS_FIRST" || t.kind == "NULLS_LAST" then
      nullsLoop (some t.text) rest
    else (acc, t :: rest)
  | acc, [] => (acc, [])

/-- Parse one `ordering_term`: an identifier, an optional direction
(`'default'` when absent), then `NULLS` suffixes. -/
def parseOrderTerm (ts : List Token) :
    Except PErr (OrderByItem × List Token) := do
  let (f, rest) ← parseIdentTok ts
  let dir : String × List Token :=
    match rest with
    | d :: rest2 =>
      if d.kind == "ASC" then ("ASC", rest2)
      else if d.kind == "DESC" then ("DESC", rest2)
      else ("default", rest)
    | [] => ("default", rest)
  let nl := nullsLoop none dir.2
  .ok ({ field := f, direction := dir.1, nulls := nl.1 }, nl.2)

/-- Parse `ordering_terms`: comma-separated ordering terms. -/
def parseOrderTermsRest (fuel : Nat) (acc : List OrderByItem)
    (ts : List Token) : Except PErr (List OrderByItem × List Token) :=
  match fuel with
  | 0 => .error .fuelOut
  | fuel + 1 =>
    match ts with
    | t :: rest =>
      if t.kind == "COMMA" then do
        let (o, rest2) ← parseOrderTerm rest
        parseOrderTermsRest fuel (acc ++ [o]) rest2
      else .ok (acc, ts)
    | [] => .ok (acc, [])

/-- Parse the `ordering_terms` nonterminal. -/
def parseOrderTerms (fuel : Nat) (ts : List Token) :
    Except PErr (List OrderByItem × List Token) := do
  let (o, rest) ← parseOrderTerm ts
  parseOrderTermsRest fuel [o] rest

/-- Alias attachment of `result_column AS identifier` (the grammar allows
repetition; each application overwrites the alias). -/
def aliasLoop : Expr → List Token → Except PErr (Expr × List Token)
  | e, t :: rest =>
    if t.kind == "AS" then
      match rest with
      | i :: rest2 =>
        if i.kind == "ID" || i.kind == "STAR" then
          aliasLoop (e.setAlias i.text) rest2
        else .error (synErrAt rest)
      | [] => .error .synEof
    else .ok (e, t :: rest)
  | e, [] => .ok (e, [])

/-- Parse one `result_column`: an expression with optional aliases. -/
def parseResultColumn (fuel : Nat) (ts : List Token) :
    Except PErr (Expr × List Token) := do
  let (e, rest) ← parseExpr fuel none ts
  aliasLoop e rest

/-- Comma-continuation of `result_columns`. -/
def parseResultColumnsRest (fuel : Nat) (acc : List Expr) (ts : List Token) :
    Except PErr (List Expr × List Token) :=
  match fuel with
  | 0 => .error .fuelOut
  | fuel + 1 =>
    match ts with
    | t :: rest =>
      if t.kind == "COMMA" then do
        let (e, rest2) ← parseResultColumn fuel rest
        parseResultColumnsRest fuel (acc ++ [e]) rest2
      else .ok (acc, ts)
    | [] => .ok (acc, [])

/-- Parse the `result_columns` nonterminal. -/
def parseResultColumns (fuel : Nat) (ts : List Token) :
    Except PErr (List Expr × List Token) := do
  let (e, rest) ← parseResultColumn fuel ts
  parseResultColumnsRest fuel [e] rest

/-- Parse the core `SELECT [DISTINCT] result_columns` productions. -/
def parseSelectCore (fuel : Nat) (ts : List Token) :
    Except PErr (Select × List Token) :=
  match ts with
  | t :: rest =>
    if t.kind == "SELECT" then
      match rest with
      | d :: rest2 =>
        if d.kind == "DISTINCT" then do
          let (cols, rest3) ← parseResultColumns fuel rest2
          .ok ({ targets := cols, distinct := true }, rest3)
        else do
          let (cols, rest3) ← parseResultColumns fuel rest
          .ok ({ targets := cols }, rest3)
      | [] => .error .synEof
    else .error (synErrAt ts)
  | [] => .error .synEof

/-- The left-recursive clause accretion: each `select <CLAUSE> ...`
production parses its payload and runs the corresponding reduction action
(which begins with `ensure_select_keyword_order`). -/
def parseClauses (fuel : Nat) (s : Select) (ts : List Token) :
    Except PErr (Select × List Token) :=
  match fuel with
  | 0 => .error .fuelOut
  | fuel + 1 =>
    match ts with
    | t :: rest =>
      if t.kind == "FROM" then do
        let (ft, rest2) ← parseFromTable fuel rest
        let s2 ← attachFrom s ft
        parseClauses fuel s2 rest2
      else if t.kind == "WHERE" then do
        let (e, rest2) ← parseExpr fuel none rest
        let s2 ← attachWhere s e
        parseClauses fuel s2 rest2
      else if t.kind == "GROUP_BY" then do
        let (es, rest2) ← parseExprList fuel rest
        let s2 ← attachGroupBy s es
        parseClauses fuel s2 rest2
      else if t.kind == "HAVING" then do
        let (e, rest2) ← parseExpr fuel none rest
        let s2 ← attachHaving s e
        parseClauses fuel s2 rest2
      else if t.kind == "ORDER_BY" then do
        let (os, rest2) ← parseOrderTerms fuel rest
        let s2 ← attachOrderBy s os
        parseClauses fuel s2 rest2
      else if t.kind == "LIMIT" then do
        let (v, rest2) ← parseConstantTok rest
        let s2 ← attachLimit s v
        parseClauses fuel s2 rest2
      else if t.kind == "OFFSET" then do
        let (v, rest2) ← parseConstantTok rest
        let s2 ← attachOffset s v
        parseClauses fuel s2 rest2
      else .ok (s, ts)
    | [] => .ok (s, [])

/-- Entry point: tokenize with the parser's token set, parse the SELECT
core, accrete clauses, and require the input to be exhausted. -/
def parseSql (q : String) : Except PErr Select := do
  let ts ← tokenize parserLexTable q
  let fuel := ts.length * 8 + 16
  let (s, rest) ← parseSelectCore fuel ts
  let (s2, rest2) ← parseClauses fuel s rest
  match rest2 with
  | [] => .ok s2
  | _ => .error (synErrAt rest2)

/-- One attached SELECT clause together with its payload, as reduced by the
corresponding `select <CLAUSE> ...` production. -/
inductive ClauseArg where
  | fromC (ft : FromTab)
  | whereA (e : Expr)
  | groupA (es : List Expr)
  | havingA (e : Expr)
  | orderA (ts : List OrderByItem)
  | limitA (v : PyVal)
  | offsetA (v : PyVal)

/-- The clause keyword of a clause argument. -/
def clauseKind : ClauseArg → CK
  | .fromC _ => .FROM
  | .whereA _ => .WHERE
  | .groupA _ => .GROUPBY
  | .havingA _ => .HAVING
  | .orderA _ => .ORDERBY
  | .limitA _ => .LIMIT
  | .offsetA _ => .OFFSET

/-- Run the reduction action of one clause (these are exactly the actions
invoked by `parseClauses`). -/
def applyClause (s : Select) : ClauseArg → Except PErr Select
  | .fromC ft => attachFrom s ft
  | .whereA e => attachWhere s e
  | .groupA es => attachGroupBy s es
  | .havingA e => attachHaving s e
  | .orderA ts => attachOrderBy s ts
  | .limitA v => attachLimit s v
  | .offsetA v => attachOffset s v

/-- Attach a sequence of clauses left to right, stopping at the first
error, as the left-recursive grammar reduces them. -/
def foldClauses (s : Select) : List ClauseArg → Except PErr Select
  | [] => .ok s
  | c :: cs =>
    match applyClause s c with
    | .ok s2 => foldClauses s2 cs
    | .error e => .error e

/-- Clause payload `FROM table` of the repository's exhaustive order test
(`test_select_order`). -/
def fromArg : ClauseArg := .fromC (.table (.ident "table" none false))

/-- Clause payload `WHERE column = 1`. -/
def whereArg : ClauseArg :=
  .whereA (.binop "=" (.ident "column" none false)
    (.const (.int 1) none false) none false)

/-- Clause payload `GROUP BY column`. -/
def groupArg : ClauseArg := .groupA [.ident "column" none false]

/-- Clause payload `HAVING column != 2`. -/
def havingArg : ClauseArg :=
  .havingA (.binop "!=" (.ident "column" none false)
    (.const (.int 2) none false) none false)

/-- Clause payload `ORDER BY column ASC`. -/
def orderArg : ClauseArg :=
  .orderA [{ field := .ident "column" none false, direction := "ASC",
             nulls := none }]

/-- Clause payload `LIMIT 1`. -/
def limitArg : ClauseArg := .limitA (.int 1)

/-- Clause payload `OFFSET 1`. -/
def offsetArg : ClauseArg := .offsetA (.int 1)

/-- The last five clauses of the canonical order. -/
def restFive : List ClauseArg :=
  [groupArg, havingArg, orderArg, limitArg, offsetArg]

/-- The seven clause payloads of the repository's exhaustive order test
(`test_select_order`), in canonical order: `FROM table`, `WHERE column = 1`,
`GROUP BY column`, `HAVING column != 2`, `ORDER BY column ASC`, `LIMIT 1`,
`OFFSET 1`. -/
def canonicalClauses : List ClauseArg := fromArg :: whereArg :: restFive

/-- The kinds of the canonical clause order. -/
def canonicalKinds : List CK := canonicalClauses.map clauseKind

/-- The base `Select` the clauses attach to (`SELECT column`). -/
def baseSelect : Select := { targets := [.ident "column" none false] }

/-- Whether an error is a clause-ordering diagnostic: a `... must go after
...` or a `... requires ...` message. -/
def isOrderErr : PErr → Bool
  | .mustGoAfter _ _ => true
  | .requiresClause _ _ => true
  | _ => false

/-- Whether attaching a clause sequence fails with an ordering diagnostic. -/
def foldFailsOrdered (cs : List ClauseArg) : Bool :=
  match foldClauses baseSelect cs with
  | .error e => isOrderErr e
  | .ok _ => false

/-- All ways to insert `x` into a list. -/
def insertsOf (x : α) : List α → List (List α)
  | [] => [[x]]
  | y :: ys => (x :: y :: ys) :: (insertsOf x ys).map (fun zs => y :: zs)

/-- All permutations of a list (structurally recursive, so that kernel
reduction can enumerate them). -/
def permsOf : List α → List (List α)
  | [] => [[]]
  | x :: xs => (permsOf xs).flatMap (insertsOf x)

/-- A permutation is accounted for when it either is the canonical order or
fails with an ordering diagnostic. -/
def checkB (p : List ClauseArg) : Bool :=
  decide (p.map clauseKind = canonicalKinds) || foldFailsOrdered p

/-- The failing round-trip input: `SELECT 'a"b'` (a single-quoted string
literal containing a double quote, accepted by the `STRING` pattern). -/
def c1Input : String :=
  "SELECT " ++ String.mk [squoteChar] ++ "a\"b" ++ String.mk [squoteChar]

/-- The AST the parser produces from `c1Input`. -/
def c1Ast : Select := { targets := [.const (.str "a\"b") none false] }

/-- The tree the parser actually produces for `SELECT 1 + 2 % 3`:
`(1 + 2) % 3`. -/
def c4Actual : Select :=
  { targets := [.binop "%"
      (.binop "+" (.const (.int 1) none false) (.const (.int 2) none false)
        none false)
      (.const (.int 3) none false) none false] }

/-- The tree claim C4 predicts for `SELECT 1 + 2 % 3`: `1 + (2 % 3)`. -/
def c4Claimed : Select :=
  { targets := [.binop "+" (.const (.int 1) none false)
      (.binop "%" (.const (.int 2) none false) (.const (.int 3) none false)
        none false) none false] }

/-- The ten decimal digit characters. -/
def digitChars : List Char :=
  ['0', '1', '2', '3', '4', '5', '6', '7', '8', '9']

/-- First character of a pattern's literal text. -/
def patFirst : LexPat → Option Char
  | .word _ w => w.toList.head?
  | .lit _ l => l.toList.head?

/-- A pattern whose first character is not a digit can never match at a
position holding a digit (keywords start with letters, punctuation with
symbols). -/
def patDigitSafe (p : LexPat) : Bool :=
  match patFirst p with
  | some c => !c.isDigit
  | none => false

/-- Kind name of a pattern. -/
def patKind : LexPat → String
  | .word k _ => k
  | .lit k _ => k

/-- Whether a remainder starts a fractional continuation (`.` followed by a
digit), in which case the `FLOAT` pattern would match a longer prefix. -/
def floatCont : List Char → Bool
  | '.' :: c :: _ => c.isDigit
  | _ => false

theorem mem_insertsOf {x : α} {q p : List α} :
    p ∈ insertsOf x q ↔ ∃ s t, q = s ++ t ∧ p = s ++ x :: t := by
  induction q generalizing p with
  | nil =>
    simp only [insertsOf, List.mem_singleton]
    constructor
    · rintro rfl
      exact ⟨[], [], rfl, rfl⟩
    · rintro ⟨s, t, hq, hp⟩
      have hs : s = [] := by
        cases s with
        | nil => rfl
        | cons a as => simp at hq
      subst hs
      have ht : t = [] := by simpa using hq.symm
      subst ht
      simpa using hp
  | cons y ys ih =>
    simp only [insertsOf, List.mem_cons, List.mem_map]
    constructor
    · rintro (rfl | ⟨zs, hzs, rfl⟩)
      · exact ⟨[], y :: ys, rfl, rfl⟩
      · obtain ⟨s, t, hq, hp⟩ := ih.mp hzs
        exact ⟨y :: s, t, by simp [hq], by simp [hp]⟩
    · rintro ⟨s, t, hq, hp⟩
      cases s with
      | nil =>
        left
        simp only [List.nil_append] at hq hp
        subst hq
        simpa using hp
      | cons a as =>
        right
        simp only [List.cons_append, List.cons.injEq] at hq hp
        refine ⟨as ++ x :: t, ih.mpr ⟨as, t, hq.2, rfl⟩, ?_⟩
        rw [hp, hq.1]

theorem mem_permsOf {l p : List α} : p ∈ permsOf l ↔ p.Perm l := by
  induction l generalizing p with
  | nil =>
    simp only [permsOf, List.mem_singleton]
    constructor
    · rintro rfl; exact List.Perm.refl _
    · intro h; exact h.eq_nil
  | cons x xs ih =>
    simp only [permsOf, List.mem_flatMap]
    constructor
    · rintro ⟨q, hq, hp⟩
      obtain ⟨s, t, rfl, rfl⟩ := mem_insertsOf.mp hp
      have h1 : (s ++ x :: t).Perm (x :: (s ++ t)) := List.perm_middle
      have h2 : (x :: (s ++ t)).Perm (x :: xs) := (ih.mp hq).cons x
      exact h1.trans h2
    · intro h
      have hx : x ∈ p := h.symm.subset (List.mem_cons_self x xs)
      obtain ⟨s, t, rfl⟩ := List.append_of_mem hx
      have h2 : (s ++ t).Perm xs := by
        have h3 : (x :: (s ++ t)).Perm (x :: xs) :=
          (List.perm_middle.symm.trans h)
        exact h3.cons_inv
      exact ⟨s ++ t, ih.mpr h2, mem_insertsOf.mpr ⟨s, t, rfl, rfl⟩⟩

theorem isPrefB_append_self (n t : List Char) : isPrefB n (n ++ t) = true := by
  induction n with
  | nil => rfl
  | cons a as ih => simp [isPrefB, ih]

theorem isSubB_nil (h : List Char) : isSubB [] h = true := by
  cases h <;> simp [isSubB, isPrefB, List.isEmpty]

theorem isSubB_self_append (n t : List Char) : isSubB n (n ++ t) = true := by
  cases n with
  | nil => exact isSubB_nil t
  | cons a as =>
    show isSubB (a :: as) (a :: (as ++ t)) = true
    simp only [isSubB, Bool.or_eq_true]
    exact Or.inl (isPrefB_append_self (a :: as) t)

theorem isSubB_append_left (pre rest : List Char) {n : List Char}
    (h : isSubB n rest = true) : isSubB n (pre ++ rest) = true := by
  induction pre with
  | nil => simpa using h
  | cons c cs ih => simp [isSubB, ih]

theorem isSubB_mid (pre suf n : List Char) :
    isSubB n (pre ++ (n ++ suf)) = true :=
  isSubB_append_left pre (n ++ suf) (isSubB_self_append n suf)

theorem isPrefB_append_ext {n l : List Char} (e : List Char)
    (h : isPrefB n l = true) : isPrefB n (l ++ e) = true := by
  induction n generalizing l with
  | nil => rfl
  | cons a as ih =>
    cases l with
    | nil => simp [isPrefB] at h
    | cons b bs =>
      simp only [isPrefB, Bool.and_eq_true, beq_iff_eq] at h
      simp only [List.cons_append, isPrefB, Bool.and_eq_true, beq_iff_eq]
      exact ⟨h.1, ih h.2⟩

theorem isSubB_append_ext {n h : List Char} (e : List Char)
    (hs : isSubB n h = true) : isSubB n (h ++ e) = true := by
  induction h with
  | nil =>
    have hn : n = [] := by simpa [isSubB, List.isEmpty_iff] using hs
    subst hn
    exact isSubB_nil e
  | cons c cs ih =>
    simp only [isSubB, Bool.or_eq_true] at hs
    simp only [List.cons_append, isSubB, Bool.or_eq_true]
    rcases hs with h1 | h2
    · exact Or.inl (isPrefB_append_ext e h1)
    · exact Or.inr (ih h2)

/-- Extend a substring occurrence to the right. -/
theorem strContains_ext (n a ext : String) (h : strContains n a = true) :
    strContains n (a ++ ext) = true := by
  show isSubB n.data ((a ++ ext)).data = true
  rw [String.data_append]
  exact isSubB_append_ext ext.data h

/-- Extend a substring occurrence to the left. -/
theorem strContains_pre (n pre a : String) (h : strContains n a = true) :
    strContains n (pre ++ a) = true := by
  show isSubB n.data ((pre ++ a)).data = true
  rw [String.data_append]
  exact isSubB_append_left pre.data a.data h

/-- A string occurs in anything of the shape `pre ++ it`. -/
theorem strContains_suffix (pre n : String) :
    strContains n (pre ++ n) = true := by
  show isSubB n.data ((pre ++ n)).data = true
  rw [String.data_append]
  have h := isSubB_mid pre.data [] n.data
  simpa using h

/-- The clause-ordering diagnostics contain `"must go after"` or
`"requires"`. -/
theorem orderErrMsg (e : PErr) (h : isOrderErr e = true) :
    strContains "must go after" e.message = true ∨
      strContains "requires" e.message = true := by
  cases e <;> simp [isOrderErr] at h
  case mustGoAfter op next =>
    left
    show strContains "must go after"
      (op.name ++ " must go after " ++ next.name) = true
    have h1 : strContains "must go after" " must go after " = true := by decide
    have h2 := strContains_ext _ _ next.name h1
    have h3 := strContains_pre _ op.name _ h2
    show isSubB ("must go after").data
      (((op.name ++ " must go after ") ++ next.name)).data = true
    have h4 : isSubB ("must go after").data
        ((op.name ++ (" must go after " ++ next.name))).data = true := h3
    rw [String.data_append, String.data_append] at h4 ⊢
    rw [List.append_assoc]
    exact h4
  case requiresClause op req =>
    right
    show strContains "requires" (op.name ++ " requires " ++ req.name) = true
    have h1 : strContains "requires" " requires " = true := by decide
    have h2 := strContains_ext _ _ req.name h1
    have h3 := strContains_pre _ op.name _ h2
    show isSubB ("requires").data
      (((op.name ++ " requires ") ++ req.name)).data = true
    have h4 : isSubB ("requires").data
        ((op.name ++ (" requires " ++ req.name))).data = true := h3
    rw [String.data_append, String.data_append] at h4 ⊢
    rw [List.append_assoc]
    exact h4

set_option maxRecDepth 10000 in
/-- Exhaustive kernel check over all 5040 permutations (grouped by the
insertion structure of `permsOf` to keep reduction depth low). -/
theorem permsAllOk :
    ((permsOf restFive).all fun q5 =>
      (insertsOf whereArg q5).all fun q6 =>
        (insertsOf fromArg q6).all checkB) = true := by decide

/-- Every permutation of the seven canonical clauses passes `checkB`. -/
theorem allPermsChecked : ∀ p ∈ permsOf canonicalClauses, checkB p = true := by
  intro p hp
  have hp1 : p ∈ (permsOf (whereArg :: restFive)).flatMap (insertsOf fromArg) := hp
  obtain ⟨q6, hq6, hpq⟩ := List.mem_flatMap.mp hp1
  have hq1 : q6 ∈ (permsOf restFive).flatMap (insertsOf whereArg) := hq6
  obtain ⟨q5, hq5, hqq⟩ := List.mem_flatMap.mp hq1
  have h1 := List.all_eq_true.mp permsAllOk q5 hq5
  have h2 := List.all_eq_true.mp h1 q6 hqq
  exact List.all_eq_true.mp h2 p hpq

/-- C1: the round-trip law fails on the code.  The parser produces
`Select(targets=[Constant('a"b')])` from `SELECT 'a"b'`; rendering that AST
yields `SELECT "a"b"`, and re-parsing the rendered text does not return a
structurally equal AST — it fails outright with a lexer error on the
unmatched closing quote.  This evaluates the code at the failing input. -/
theorem claim_C1_roundtrip_fails :
    parseSql c1Input = .ok c1Ast ∧
    Select.render c1Ast = "SELECT \"a\"b\"" ∧
    parseSql (Select.render c1Ast) = .error (.illegalChar '"') :=
  ⟨rfl, rfl, rfl⟩

/-- C2: clause-order exhaustiveness.  (1) The canonical clause order
attaches successfully; (2) every other permutation of the seven clauses
fails with an error whose message contains "must go after" or "requires";
(3) `SELECT c FROM t OFFSET 1 LIMIT 5` fails with `LIMIT must go after
OFFSET`; (4) `SELECT c FROM t LIMIT 5 OFFSET 1` parses successfully. -/
theorem claim_C2_clause_order :
    (∃ s, foldClauses baseSelect canonicalClauses = .ok s) ∧
    (∀ p : List ClauseArg, p.Perm canonicalClauses →
      p.map clauseKind ≠ canonicalKinds →
      ∃ e, foldClauses baseSelect p = .error e ∧
        (strContains "must go after" e.message = true ∨
         strContains "requires" e.message = true)) ∧
    parseSql "SELECT c FROM t OFFSET 1 LIMIT 5" =
      .error (.mustGoAfter .LIMIT .OFFSET) ∧
    parseSql "SELECT c FROM t LIMIT 5 OFFSET 1" =
      .ok { targets := [.ident "c" none false],
            from_table := some (.table (.ident "t" none false)),
            limit := some (.const (.int 5) none false),
            offset := some (.const (.int 1) none false) } := by
  refine ⟨⟨_, rfl⟩, ?_, rfl, rfl⟩
  intro p hperm hkind
  have hp : p ∈ permsOf canonicalClauses := mem_permsOf.mpr hperm
  have hc := allPermsChecked p hp
  unfold checkB at hc
  rw [Bool.or_eq_true] at hc
  rcases hc with h1 | h2
  · rw [decide_eq_true_eq] at h1
    exact absurd h1 hkind
  · unfold foldFailsOrdered at h2
    cases hf : foldClauses baseSelect p with
    | ok s => rw [hf] at h2; simp at h2
    | error e =>
      rw [hf] at h2
      exact ⟨e, rfl, orderErrMsg e h2⟩

/-- Witness for C2: the permutation that swaps `FROM` and `WHERE` fails
with an ordering diagnostic. -/
theorem claim_C2_witness :
    ∃ e, foldClauses baseSelect (whereArg :: fromArg :: restFive) = .error e ∧
      (strContains "must go after" e.message = true ∨
       strContains "requires" e.message = true) :=
  claim_C2_clause_order.2.1 (whereArg :: fromArg :: restFive)
    (List.Perm.swap fromArg whereArg restFive) (by decide)

/-- C3: expression precedence.  `SELECT 1 + 2 * 3` parses with the
multiplication grouped under the addition, and `SELECT a = b AND c = d`
parses with `AND` at the root combining the two `=` comparisons. -/
theorem claim_C3_precedence :
    parseSql "SELECT 1 + 2 * 3" =
      .ok { targets := [.binop "+" (.const (.int 1) none false)
              (.binop "*" (.const (.int 2) none false)
                (.const (.int 3) none false) none false) none false] } ∧
    parseSql "SELECT a = b AND c = d" =
      .ok { targets := [.binop "AND"
              (.binop "=" (.ident "a" none false) (.ident "b" none false)
                none false)
              (.binop "=" (.ident "c" none false) (.ident "d" none false)
                none false) none false] } :=
  ⟨rfl, rfl⟩

/-- C4 counterexample: `SELECT 1 + 2 % 3` does not parse as `1 + (2 % 3)`:
the parser produces `(1 + 2) % 3` (and the two trees differ structurally),
because `MODULO` has no declared precedence, so the `+` rule (declared
level 2) reduces before an adjacent `%` (default level 0). -/
theorem claim_C4_counterexample :
    parseSql "SELECT 1 + 2 % 3" = .ok c4Actual ∧
    Select.tree c4Actual ≠ Select.tree c4Claimed ∧
    parseSql "SELECT 1 + 2 % 3" ≠ .ok c4Claimed := by
  have h1 : parseSql "SELECT 1 + 2 % 3" = .ok c4Actual := rfl
  have hne : Select.tree c4Actual ≠ Select.tree c4Claimed := by decide
  refine ⟨h1, hne, ?_⟩
  intro h
  rw [h1] at h
  injection h with h2
  exact hne (congrArg Select.tree h2)

/-- C4 as amended: `%` has no declared precedence, so instead of binding
tighter than `+`/`-` it loses every conflict against declared operators and
chains by the default shift: `SELECT 1 + 2 % 3` parses as `(1 + 2) % 3`,
and `SELECT 8 % 3 % 2` parses right-associatively as `8 % (3 % 2)`. -/
theorem claim_C4_amended :
    parseSql "SELECT 1 + 2 % 3" = .ok c4Actual ∧
    parseSql "SELECT 8 % 3 % 2" =
      .ok { targets := [.binop "%" (.const (.int 8) none false)
              (.binop "%" (.const (.int 3) none false)
                (.const (.int 2) none false) none false) none false] } :=
  ⟨rfl, rfl⟩

/-- C5: boolean-operand check.  For a `Select` in the state the grammar can
be in when the clause reduces (prerequisites attached, later clauses not),
attaching a WHERE (resp. HAVING) operand that is not an operation node
fails with the `whereNotOp` (resp. `havingNotOp`) error, and an operation
node attaches successfully; the error message names the clause, contains
"must contain an operation that evaluates to a boolean", and contains the
rendering of the offending expression.  The two concrete inputs of the
claim behave accordingly. -/
theorem claim_C5_bool_operand :
    (∀ (s : Select) (e : Expr),
      s.from_table.isSome = true → s.whereC = none → s.group_by = none →
      s.having = none → s.order_by = none → s.limit = none →
      s.offset = none →
      (e.isOperation = false → attachWhere s e = .error (.whereNotOp e)) ∧
      (e.isOperation = true →
        attachWhere s e = .ok { s with whereC := some e })) ∧
    (∀ (s : Select) (e : Expr),
      s.group_by.isSome = true → s.having = none → s.order_by = none →
      s.limit = none → s.offset = none →
      (e.isOperation = false → attachHaving s e = .error (.havingNotOp e)) ∧
      (e.isOperation = true →
        attachHaving s e = .ok { s with having := some e })) ∧
    (∀ e : Expr,
      strContains "must contain an operation that evaluates to a boolean"
        (PErr.whereNotOp e).message = true ∧
      strContains "WHERE" (PErr.whereNotOp e).message = true ∧
      strContains e.render (PErr.whereNotOp e).message = true ∧
      strContains "must contain an operation that evaluates to a boolean"
        (PErr.havingNotOp e).message = true ∧
      strContains "HAVING" (PErr.havingNotOp e).message = true ∧
      strContains e.render (PErr.havingNotOp e).message = true) ∧
    parseSql "SELECT c FROM t WHERE c" =
      .error (.whereNotOp (.ident "c" none false)) ∧
    parseSql "SELECT c FROM t GROUP BY g HAVING h" =
      .error (.havingNotOp (.ident "h" none false)) ∧
    parseSql "SELECT c FROM t WHERE c = 1" =
      .ok { targets := [.ident "c" none false],
            from_table := some (.table (.ident "t" none false)),
            whereC := some (.binop "=" (.ident "c" none false)
              (.const (.int 1) none false) none false) } := by
  refine ⟨?_, ?_, ?_, rfl, rfl, rfl⟩
  · intro s e hft hw hg hh ho hl hof
    obtain ⟨tg, dis, ft, w, g, hv, ob, li, of⟩ := s
    have hw' : w = none := hw
    have hg' : g = none := hg
    have hh' : hv = none := hh
    have ho' : ob = none := ho
    have hl' : li = none := hl
    have hof' : of = none := hof
    subst hw' hg' hh' ho' hl' hof'
    have hft' : ft.isSome = true := hft
    cases ft with
    | none => simp at hft'
    | some ftv =>
      have hred : attachWhere
          { targets := tg, distinct := dis, from_table := some ftv } e =
          if e.isOperation then
            .ok { targets := tg, distinct := dis, from_table := some ftv,
                  whereC := some e }
          else .error (.whereNotOp e) := rfl
      constructor
      · intro hop
        rw [hred, hop]
        simp
      · intro hop
        rw [hred, hop]
        simp
  · intro s e hg hh ho hl hof
    obtain ⟨tg, dis, ft, w, g, hv, ob, li, of⟩ := s
    have hh' : hv = none := hh
    have ho' : ob = none := ho
    have hl' : li = none := hl
    have hof' : of = none := hof
    subst hh' ho' hl' hof'
    have hg' : g.isSome = true := hg
    cases g with
    | none => simp at hg'
    | some gv =>
      have hred : attachHaving
          { targets := tg, distinct := dis, from_table := ft, whereC := w,
            group_by := some gv } e =
          if e.isOperation then
            .ok { targets := tg, distinct := dis, from_table := ft,
                  whereC := w, group_by := some gv, having := some e }
          else .error (.havingNotOp e) := rfl
      constructor
      · intro hop
        rw [hred, hop]
        simp
      · intro hop
        rw [hred, hop]
        simp
  · intro e
    refine ⟨?_, ?_, ?_, ?_, ?_, ?_⟩
    · show strContains _
        ("WHERE must contain an operation that evaluates to a boolean, got: "
          ++ e.render) = true
      exact strContains_ext _ _ _ (by decide)
    · show strContains _
        ("WHERE must contain an operation that evaluates to a boolean, got: "
          ++ e.render) = true
      exact strContains_ext _ _ _ (by decide)
    · show strContains _
        ("WHERE must contain an operation that evaluates to a boolean, got: "
          ++ e.render) = true
      exact strContains_suffix _ _
    · show strContains _
        ("HAVING must contain an operation that evaluates to a boolean, got: "
          ++ e.render) = true
      exact strContains_ext _ _ _ (by decide)
    · show strContains _
        ("HAVING must contain an operation that evaluates to a boolean, got: "
          ++ e.render) = true
      exact strContains_ext _ _ _ (by decide)
    · show strContains _
        ("HAVING must contain an operation that evaluates to a boolean, got: "
          ++ e.render) = true
      exact strContains_suffix _ _

/-- Witness for C5: at `SELECT c FROM t`, attaching `WHERE c` (a bare
identifier) fails with the boolean-operand error, and attaching
`WHERE c = 1` succeeds. -/
theorem claim_C5_witness :
    attachWhere { targets := [.ident "c" none false],
                  from_table := some (.table (.ident "t" none false)) }
      (.ident "c" none false) =
      .error (.whereNotOp (.ident "c" none false)) ∧
    attachWhere { targets := [.ident "c" none false],
                  from_table := some (.table (.ident "t" none false)) }
      (.binop "=" (.ident "c" none false) (.const (.int 1) none false)
        none false) =
      .ok { targets := [.ident "c" none false],
            from_table := some (.table (.ident "t" none false)),
            whereC := some (.binop "=" (.ident "c" none false)
              (.const (.int 1) none false) none false) } := by
  constructor
  · exact (claim_C5_bool_operand.1
      { targets := [.ident "c" none false],
        from_table := some (.table (.ident "t" none false)) }
      (.ident "c" none false) rfl rfl rfl rfl rfl rfl rfl).1 rfl
  · exact (claim_C5_bool_operand.1
      { targets := [.ident "c" none false],
        from_table := some (.table (.ident "t" none false)) }
      (.binop "=" (.ident "c" none false) (.const (.int 1) none false)
        none false) rfl rfl rfl rfl rfl rfl rfl).2 rfl

/-- C6: integer-only LIMIT/OFFSET.  For a `Select` in the state the grammar
can be in when the clause reduces, attaching a LIMIT (resp. OFFSET)
constant whose value is not a Python `int` fails with the `limitNotInt`
(resp. `offsetNotInt`) error whose message names the clause and the actual
value; with an integer value the clause attaches and the field holds that
integer constant.  `SELECT c FROM t LIMIT "x"` and
`SELECT c FROM t OFFSET 3.0` fail, and integer forms succeed. -/
theorem claim_C6_int_limit_offset :
    (∀ (s : Select) (v : PyVal),
      s.limit = none → s.offset = none →
      (v.isInt = false → attachLimit s v = .error (.limitNotInt v)) ∧
      (v.isInt = true →
        attachLimit s v = .ok { s with limit := some (.const v none false) })) ∧
    (∀ (s : Select) (v : PyVal),
      s.offset = none →
      (v.isInt = false → attachOffset s v = .error (.offsetNotInt v)) ∧
      (v.isInt = true →
        attachOffset s v =
          .ok { s with offset := some (.const v none false) })) ∧
    (∀ v : PyVal,
      strContains "LIMIT" (PErr.limitNotInt v).message = true ∧
      strContains v.pyStr (PErr.limitNotInt v).message = true ∧
      strContains "OFFSET" (PErr.offsetNotInt v).message = true ∧
      strContains v.pyStr (PErr.offsetNotInt v).message = true) ∧
    parseSql "SELECT c FROM t LIMIT \"x\"" =
      .error (.limitNotInt (.str "x")) ∧
    parseSql "SELECT c FROM t OFFSET 3.0" =
      .error (.offsetNotInt (.float ⟨"3", "0"⟩)) ∧
    parseSql "SELECT c FROM t LIMIT 7" =
      .ok { targets := [.ident "c" none false],
            from_table := some (.table (.ident "t" none false)),
            limit := some (.const (.int 7) none false) } ∧
    parseSql "SELECT c FROM t OFFSET 4" =
      .ok { targets := [.ident "c" none false],
            from_table := some (.table (.ident "t" none false)),
            offset := some (.const (.int 4) none false) } := by
  refine ⟨?_, ?_, ?_, rfl, rfl, rfl, rfl⟩
  · intro s v hl hof
    obtain ⟨tg, dis, ft, w, g, hv, ob, li, of⟩ := s
    have hl' : li = none := hl
    have hof' : of = none := hof
    subst hl' hof'
    have hred : attachLimit
        { targets := tg, distinct := dis, from_table := ft, whereC := w,
          group_by := g, having := hv, order_by := ob } v =
        if v.isInt then
          .ok { targets := tg, distinct := dis, from_table := ft,
                whereC := w, group_by := g, having := hv, order_by := ob,
                limit := some (.const v none false) }
        else .error (.limitNotInt v) := rfl
    constructor
    · intro hop
      rw [hred, hop]
      simp
    · intro hop
      rw [hred, hop]
      simp
  · intro s v hof
    obtain ⟨tg, dis, ft, w, g, hv, ob, li, of⟩ := s
    have hof' : of = none := hof
    subst hof'
    have hred : attachOffset
        { targets := tg, distinct := dis, from_table := ft, whereC := w,
          group_by := g, having := hv, order_by := ob, limit := li } v =
        if v.isInt then
          .ok { targets := tg, distinct := dis, from_table := ft,
                whereC := w, group_by := g, having := hv, order_by := ob,
                limit := li, offset := some (.const v none false) }
        else .error (.offsetNotInt v) := rfl
    constructor
    · intro hop
      rw [hred, hop]
      simp
    · intro hop
      rw [hred, hop]
      simp
  · intro v
    refine ⟨?_, ?_, ?_, ?_⟩
    · show strContains _
        ("LIMIT must be an integer value, got: " ++ v.pyStr) = true
      exact strContains_ext _ _ _ (by decide)
    · show strContains _
        ("LIMIT must be an integer value, got: " ++ v.pyStr) = true
      exact strContains_suffix _ _
    · show strContains _
        ("OFFSET must be an integer value, got: " ++ v.pyStr) = true
      exact strContains_ext _ _ _ (by decide)
    · show strContains _
        ("OFFSET must be an integer value, got: " ++ v.pyStr) = true
      exact strContains_suffix _ _

/-- Witness for C6: at `SELECT c FROM t`, attaching `LIMIT "x"` fails with
the integer-value error and attaching `LIMIT 5` succeeds. -/
theorem claim_C6_witness :
    attachLimit { targets := [.ident "c" none false],
                  from_table := some (.table (.ident "t" none false)) }
      (.str "x") = .error (.limitNotInt (.str "x")) ∧
    attachLimit { targets := [.ident "c" none false],
                  from_table := some (.table (.ident "t" none false)) }
      (.int 5) =
      .ok { targets := [.ident "c" none false],
            from_table := some (.table (.ident "t" none false)),
            limit := some (.const (.int 5) none false) } := by
  constructor
  · exact (claim_C6_int_limit_offset.1
      { targets := [.ident "c" none false],
        from_table := some (.table (.ident "t" none false)) }
      (.str "x") rfl rfl).1 rfl
  · exact (claim_C6_int_limit_offset.1
      { targets := [.ident "c" none false],
        from_table := some (.table (.ident "t" none false)) }
      (.int 5) rfl rfl).2 rfl

/-- C7: join forms.  `SELECT * FROM t1, t2` yields an implicit
`INNER JOIN` with no condition; `SELECT * FROM t1 LEFT JOIN t2 ON t1.x =
t2.y` yields a `LEFT JOIN` with the `=` comparison as its condition and
`implicit = false`. -/
theorem claim_C7_joins :
    parseSql "SELECT * FROM t1, t2" =
      .ok { targets := [.ident "*" none false],
            from_table := some (.joined "INNER JOIN"
              (.ident "t1" none false) (.ident "t2" none false) none true) } ∧
    parseSql "SELECT * FROM t1 LEFT JOIN t2 ON t1.x = t2.y" =
      .ok { targets := [.ident "*" none false],
            from_table := some (.joined "LEFT JOIN"
              (.ident "t1" none false) (.ident "t2" none false)
              (some (.binop "=" (.ident "t1.x" none false)
                (.ident "t2.y" none false) none false)) false) } :=
  ⟨rfl, rfl⟩

set_option maxHeartbeats 4000000 in
/-- C8: two-word keyword tokenization.  At any scan position that starts
one of the phrases `GROUP BY`, `ORDER BY`, `NULLS FIRST`, `NULLS LAST`
(case-insensitively, exactly one space, word boundaries on both sides), the
lexer emits exactly one token for the whole phrase — `GROUP_BY`,
`ORDER_BY`, `NULLS_FIRST`, `NULLS_LAST` — consuming all its characters,
rather than tokenizing the first word alone as a keyword or identifier;
plus a concrete tokenization. -/
theorem claim_C8_two_word_keywords :
    (∀ (prev : Option Char) (c1 c2 c3 c4 c5 c6 c7 c8 : Char)
      (rest : List Char),
      prevOk prev = true → afterOk rest = true →
      c1.toUpper = 'G' → c2.toUpper = 'R' → c3.toUpper = 'O' →
      c4.toUpper = 'U' → c5.toUpper = 'P' → c6.toUpper = ' ' →
      c7.toUpper = 'B' → c8.toUpper = 'Y' →
      nextToken lexTable prev
        (c1 :: c2 :: c3 :: c4 :: c5 :: c6 :: c7 :: c8 :: rest) =
        some ({ kind := "GROUP_BY",
                text := String.mk [c1, c2, c3, c4, c5, c6, c7, c8],
                val := .raw }, rest)) ∧
    (∀ (prev : Option Char) (c1 c2 c3 c4 c5 c6 c7 c8 : Char)
      (rest : List Char),
      prevOk prev = true → afterOk rest = true →
      c1.toUpper = 'O' → c2.toUpper = 'R' → c3.toUpper = 'D' →
      c4.toUpper = 'E' → c5.toUpper = 'R' → c6.toUpper = ' ' →
      c7.toUpper = 'B' → c8.toUpper = 'Y' →
      nextToken lexTable prev
        (c1 :: c2 :: c3 :: c4 :: c5 :: c6 :: c7 :: c8 :: rest) =
        some ({ kind := "ORDER_BY",
                text := String.mk [c1, c2, c3, c4, c5, c6, c7, c8],
                val := .raw }, rest)) ∧
    (∀ (prev : Option Char) (c1 c2 c3 c4 c5 c6 c7 c8 c9 c10 c11 : Char)
      (rest : List Char),
      prevOk prev = true → afterOk rest = true →
      c1.toUpper = 'N' → c2.toUpper = 'U' → c3.toUpper = 'L' →
      c4.toUpper = 'L' → c5.toUpper = 'S' → c6.toUpper = ' ' →
      c7.toUpper = 'F' → c8.toUpper = 'I' → c9.toUpper = 'R' →
      c10.toUpper = 'S' → c11.toUpper = 'T' →
      nextToken lexTable prev
        (c1 :: c2 :: c3 :: c4 :: c5 :: c6 :: c7 :: c8 :: c9 :: c10 ::
          c11 :: rest) =
        some ({ kind := "NULLS_FIRST",
                text := String.mk [c1, c2, c3, c4, c5, c6, c7, c8, c9, c10,
                  c11],
                val := .raw }, rest)) ∧
    (∀ (prev : Option Char) (c1 c2 c3 c4 c5 c6 c7 c8 c9 c10 : Char)
      (rest : List Char),
      prevOk prev = true → afterOk rest = true →
      c1.toUpper = 'N' → c2.toUpper = 'U' → c3.toUpper = 'L' →
      c4.toUpper = 'L' → c5.toUpper = 'S' → c6.toUpper = ' ' →
      c7.toUpper = 'L' → c8.toUpper = 'A' → c9.toUpper = 'S' →
      c10.toUpper = 'T' →
      nextToken lexTable prev
        (c1 :: c2 :: c3 :: c4 :: c5 :: c6 :: c7 :: c8 :: c9 :: c10 ::
          rest) =
        some ({ kind := "NULLS_LAST",
                text := String.mk [c1, c2, c3, c4, c5, c6, c7, c8, c9, c10],
                val := .raw }, rest)) ∧
    tokenize lexTable "a GROUP BY b" =
      .ok [{ kind := "ID", text := "a", val := .raw },
           { kind := "GROUP_BY", text := "GROUP BY", val := .raw },
           { kind := "ID", text := "b", val := .raw }] := by
  refine ⟨?_, ?_, ?_, ?_, rfl⟩
  · intro prev c1 c2 c3 c4 c5 c6 c7 c8 rest hprev hafter h1 h2 h3 h4 h5 h6
      h7 h8
    simp +decide [nextToken, tryTable, runPat, lexTable, matchWordCI,
      matchLit, hprev, hafter, h1, h2, h3, h4, h5, h6, h7, h8]
  · intro prev c1 c2 c3 c4 c5 c6 c7 c8 rest hprev hafter h1 h2 h3 h4 h5 h6
      h7 h8
    simp +decide [nextToken, tryTable, runPat, lexTable, matchWordCI,
      matchLit, hprev, hafter, h1, h2, h3, h4, h5, h6, h7, h8]
  · intro prev c1 c2 c3 c4 c5 c6 c7 c8 c9 c10 c11 rest hprev hafter h1 h2
      h3 h4 h5 h6 h7 h8 h9 h10 h11
    simp +decide [nextToken, tryTable, runPat, lexTable, matchWordCI,
      matchLit, hprev, hafter, h1, h2, h3, h4, h5, h6, h7, h8, h9, h10, h11]
  · intro prev c1 c2 c3 c4 c5 c6 c7 c8 c9 c10 rest hprev hafter h1 h2 h3
      h4 h5 h6 h7 h8 h9 h10
    simp +decide [nextToken, tryTable, runPat, lexTable, matchWordCI,
      matchLit, hprev, hafter, h1, h2, h3, h4, h5, h6, h7, h8, h9, h10]

/-- Witness for C8: a lower-case `group by` after a space, at end of input,
lexes as a single `GROUP_BY` token. -/
theorem claim_C8_witness :
    nextToken lexTable (some ' ')
      ('g' :: 'r' :: 'o' :: 'u' :: 'p' :: ' ' :: 'b' :: 'y' :: []) =
      some ({ kind := "GROUP_BY",
              text := String.mk ['g', 'r', 'o', 'u', 'p', ' ', 'b', 'y'],
              val := .raw }, []) :=
  claim_C8_two_word_keywords.1 (some ' ') 'g' 'r' 'o' 'u' 'p' ' ' 'b' 'y' []
    (by decide) (by decide) (by decide) (by decide) (by decide) (by decide)
    (by decide) (by decide) (by decide) (by decide)

theorem digit_isDigit {c : Char} (h : c ∈ digitChars) : c.isDigit = true := by
  fin_cases h <;> decide

theorem digit_toUpper {c : Char} (h : c ∈ digitChars) : c.toUpper = c := by
  fin_cases h <;> decide

theorem digit_idChar {c : Char} (h : c ∈ digitChars) : idChar c = true := by
  fin_cases h <;> decide

theorem digit_ne_backquote {c : Char} (h : c ∈ digitChars) :
    c ≠ backquote := by
  fin_cases h <;> decide

theorem isDigit_idChar {c : Char} (h : c.isDigit = true) : idChar c = true := by
  simp [idChar, Char.isAlphanum, h]

theorem takeWhile_all {p : Char → Bool} {l : List Char}
    (h : ∀ c ∈ l, p c = true) : l.takeWhile p = l := by
  induction l with
  | nil => rfl
  | cons x xs ih =>
    simp [List.takeWhile_cons, h x (List.mem_cons_self x xs),
      ih (fun c hc => h c (List.mem_cons_of_mem x hc))]

theorem takeWhile_all_append {p : Char → Bool} {l : List Char} {b : Char}
    (r : List Char) (h : ∀ c ∈ l, p c = true) (hb : p b = false) :
    (l ++ b :: r).takeWhile p = l := by
  induction l with
  | nil => simp [List.takeWhile_cons, hb]
  | cons x xs ih =>
    simp [List.takeWhile_cons, h x (List.mem_cons_self x xs),
      ih (fun c hc => h c (List.mem_cons_of_mem x hc))]

theorem matchWordCI_ne {wc : Char} (ws : List Char) {c : Char}
    (cs : List Char) (h : ¬ c.toUpper = wc) :
    matchWordCI (wc :: ws) (c :: cs) = none := by
  simp [matchWordCI, h]

theorem matchLit_ne {lc : Char} (ls : List Char) {c : Char} (cs : List Char)
    (h : ¬ c = lc) : matchLit (lc :: ls) (c :: cs) = none := by
  simp [matchLit, h]

theorem runPat_none_digit (p : LexPat) (prev : Option Char) {c : Char}
    (cs : List Char) (hc : c ∈ digitChars) (hp : patDigitSafe p = true) :
    runPat p prev (c :: cs) = none := by
  cases p with
  | word k w =>
    cases hw : w.toList with
    | nil =>
      have hw2 : w.data = [] := hw
      simp [patDigitSafe, patFirst, hw2] at hp
    | cons wc ws =>
      have hw2 : w.data = wc :: ws := hw
      have hwc : wc.isDigit = false := by
        have h2 := hp
        simp [patDigitSafe, patFirst, hw2] at h2
        simpa using h2
      have hne : ¬ c.toUpper = wc := by
        rw [digit_toUpper hc]
        intro h
        subst h
        rw [digit_isDigit hc] at hwc
        simp at hwc
      simp only [runPat]
      rw [hw, matchWordCI_ne ws cs hne]
      cases prevOk prev <;> simp
  | lit k l =>
    cases hw : l.toList with
    | nil =>
      have hw2 : l.data = [] := hw
      simp [patDigitSafe, patFirst, hw2] at hp
    | cons lc ls =>
      have hw2 : l.data = lc :: ls := hw
      have hlc : lc.isDigit = false := by
        have h2 := hp
        simp [patDigitSafe, patFirst, hw2] at h2
        simpa using h2
      have hne : ¬ c = lc := by
        intro h
        subst h
        rw [digit_isDigit hc] at hlc
        simp at hlc
      simp only [runPat]
      rw [hw, matchLit_ne ls cs hne]

theorem tryTable_none_digit (ps : List LexPat) (prev : Option Char)
    {c : Char} (cs : List Char) (hc : c ∈ digitChars)
    (hall : ps.all patDigitSafe = true) :
    tryTable ps prev (c :: cs) = none := by
  induction ps with
  | nil => rfl
  | cons p ps ih =>
    rw [List.all_cons, Bool.and_eq_true] at hall
    unfold tryTable
    rw [runPat_none_digit p prev cs hc hall.1]
    exact ih hall.2

theorem lexTable_digitSafe : lexTable.all patDigitSafe = true := by decide

theorem matchID_none_digits {d rest : List Char} (hd : d ≠ [])
    (hdig : ∀ c ∈ d, c ∈ digitChars)
    (hstop : ∀ c rs, rest = c :: rs → idChar c = false) :
    matchID (d ++ rest) = none := by
  have hrun : (d ++ rest).takeWhile idChar = d := by
    cases hr : rest with
    | nil =>
      rw [List.append_nil]
      exact takeWhile_all (fun c hc => digit_idChar (hdig c hc))
    | cons r rs =>
      exact takeWhile_all_append rs (fun c hc => digit_idChar (hdig c hc))
        (hstop r rs hr)
  have hempty : d.isEmpty = false := by
    cases d with
    | nil => exact absurd rfl hd
    | cons a as => rfl
  have hall : (d.all fun c => c.isDigit) = true :=
    List.all_eq_true.mpr (fun c hc => digit_isDigit (hdig c hc))
  have hbare : bareSeg (d ++ rest) = none := by
    simp [bareSeg, hrun, hempty, hall]
  have hquot : quotedSeg (d ++ rest) = none := by
    cases d with
    | nil => exact absurd rfl hd
    | cons a as =>
      have hne := digit_ne_backquote (hdig a (List.mem_cons_self a as))
      simp [quotedSeg, hne]
  unfold matchID idSeg
  rw [hbare, hquot]

/-- C9: float/integer lexing.  At any scan position, a digit run
immediately followed by `.` and another digit run (maximal) lexes as
exactly one `FLOAT` token carrying the float literal value — never as
`INTEGER DOT INTEGER` — and a bare digit run not continued by an
identifier character or a fractional part lexes as one `INTEGER` token
carrying the integer value; plus the two concrete tokenizations. -/
theorem claim_C9_float_integer :
    (∀ (prev : Option Char) (d1 d2 rest : List Char),
      d1 ≠ [] → d2 ≠ [] →
      (∀ c ∈ d1, c ∈ digitChars) → (∀ c ∈ d2, c ∈ digitChars) →
      (∀ c rs, rest = c :: rs → c.isDigit = false) →
      nextToken lexTable prev (d1 ++ '.' :: (d2 ++ rest)) =
        some ({ kind := "FLOAT", text := String.mk (d1 ++ '.' :: d2),
                val := .float ⟨String.mk d1, String.mk d2⟩ }, rest)) ∧
    (∀ (prev : Option Char) (d rest : List Char),
      d ≠ [] → (∀ c ∈ d, c ∈ digitChars) →
      (∀ c rs, rest = c :: rs → idChar c = false) →
      floatCont rest = false →
      nextToken lexTable prev (d ++ rest) =
        some ({ kind := "INTEGER", text := String.mk d,
                val := .int (Int.ofNat (digitsToNat d)) }, rest)) ∧
    tokenize lexTable "1.5" =
      .ok [{ kind := "FLOAT", text := "1.5", val := .float ⟨"1", "5"⟩ }] ∧
    tokenize lexTable "15" =
      .ok [{ kind := "INTEGER", text := "15", val := .int 15 }] := by
  refine ⟨?_, ?_, rfl, rfl⟩
  · intro prev d1 d2 rest hd1 hd2 hdig1 hdig2 hstop
    have hdot : Char.isDigit '.' = false := by decide
    have htw1 : (d1 ++ '.' :: (d2 ++ rest)).takeWhile Char.isDigit = d1 :=
      takeWhile_all_append _ (fun c hc => digit_isDigit (hdig1 c hc)) hdot
    have hdrop1 : (d1 ++ '.' :: (d2 ++ rest)).drop d1.length =
        '.' :: (d2 ++ rest) := List.drop_left _ _
    have htw2 : (d2 ++ rest).takeWhile Char.isDigit = d2 := by
      cases hr : rest with
      | nil =>
        rw [List.append_nil]
        exact takeWhile_all (fun c hc => digit_isDigit (hdig2 c hc))
      | cons r rs =>
        exact takeWhile_all_append rs
          (fun c hc => digit_isDigit (hdig2 c hc)) (hstop r rs hr)
    have hdrop2 : (d2 ++ rest).drop d2.length = rest := List.drop_left _ _
    have h1e : d1.isEmpty = false := by
      cases d1 with
      | nil => exact absurd rfl hd1
      | cons a as => rfl
    have h2e : d2.isEmpty = false := by
      cases d2 with
      | nil => exact absurd rfl hd2
      | cons a as => rfl
    have hfl : matchFLOAT (d1 ++ '.' :: (d2 ++ rest)) =
        some ({ kind := "FLOAT", text := String.mk (d1 ++ '.' :: d2),
                val := .float ⟨String.mk d1, String.mk d2⟩ }, rest) := by
      simp [matchFLOAT, htw1, hdrop1, htw2, hdrop2, h1e, h2e]
    cases d1 with
    | nil => exact absurd rfl hd1
    | cons dc d1' =>
      have hdc : dc ∈ digitChars := hdig1 dc (List.mem_cons_self dc d1')
      have htt : tryTable lexTable prev
          (dc :: (d1' ++ '.' :: (d2 ++ rest))) = none :=
        tryTable_none_digit lexTable prev _ hdc lexTable_digitSafe
      have hid : matchID ((dc :: d1') ++ '.' :: (d2 ++ rest)) = none :=
        matchID_none_digits (by simp) hdig1 (fun c rs h => by
          injection h with h1 h2
          subst h1
          decide)
      unfold nextToken
      simp only [List.cons_append] at hfl hid ⊢
      rw [htt, hid, hfl]
  · intro prev d rest hd hdig hstop hfc
    have htw : (d ++ rest).takeWhile Char.isDigit = d := by
      cases hr : rest with
      | nil =>
        rw [List.append_nil]
        exact takeWhile_all (fun c hc => digit_isDigit (hdig c hc))
      | cons r rs =>
        have hrid : idChar r = false := hstop r rs hr
        have hrd : r.isDigit = false := by
          cases hh : r.isDigit with
          | false => rfl
          | true =>
            rw [isDigit_idChar hh] at hrid
            simp at hrid
        exact takeWhile_all_append rs
          (fun c hc => digit_isDigit (hdig c hc)) hrd
    have hdrop : (d ++ rest).drop d.length = rest := List.drop_left _ _
    have hde : d.isEmpty = false := by
      cases d with
      | nil => exact absurd rfl hd
      | cons a as => rfl
    have hmf : matchFLOAT (d ++ rest) = none := by
      unfold matchFLOAT
      simp only [htw, hdrop, hde]
      split
      · next hcond => simp at hcond
      · split
        · next tl =>
          have hd2 : tl.takeWhile Char.isDigit = [] := by
            cases tl with
            | nil => rfl
            | cons c2 rs2 =>
              have hc2 : c2.isDigit = false := by
                simpa [floatCont] using hfc
              simp [List.takeWhile_cons, hc2]
          rw [hd2]
          rfl
        · rfl
    have hmi : matchINTEGER (d ++ rest) =
        some ({ kind := "INTEGER", text := String.mk d,
                val := .int (Int.ofNat (digitsToNat d)) }, rest) := by
      unfold matchINTEGER
      simp only [htw, hdrop, hde]
      rfl
    cases d with
    | nil => exact absurd rfl hd
    | cons dc d' =>
      have hdc : dc ∈ digitChars := hdig dc (List.mem_cons_self dc d')
      have htt : tryTable lexTable prev (dc :: (d' ++ rest)) = none :=
        tryTable_none_digit lexTable prev _ hdc lexTable_digitSafe
      have hid : matchID ((dc :: d') ++ rest) = none :=
        matchID_none_digits (by simp) hdig hstop
      unfold nextToken
      simp only [List.cons_append] at hmf hmi hid ⊢
      rw [htt, hid, hmf, hmi]

/-- Witness for C9: `1.5` at the start of input lexes as one FLOAT token. -/
theorem claim_C9_witness :
    nextToken lexTable none (['1'] ++ '.' :: (['5'] ++ [])) =
      some ({ kind := "FLOAT", text := String.mk (['1'] ++ '.' :: ['5']),
              val := .float ⟨String.mk ['1'], String.mk ['5']⟩ }, []) :=
  claim_C9_float_integer.1 none ['1'] ['5'] [] (by decide) (by decide)
    (by decide) (by decide) (fun c rs h => nomatch h)

theorem runPat_kind {p : LexPat} {prev : Option Char} {cs : List Char}
    {t : Token} {rest : List Char} (h : runPat p prev cs = some (t, rest)) :
    t.kind = patKind p := by
  cases p with
  | word k w =>
    simp only [runPat] at h
    repeat' split at h
    all_goals
      first
      | exact Option.noConfusion h
      | exact (congrArg (fun x => (x : Token × List Char).1.kind)
          (Option.some.inj h)).symm
  | lit k l =>
    simp only [runPat] at h
    repeat' split at h
    all_goals
      first
      | exact Option.noConfusion h
      | exact (congrArg (fun x => (x : Token × List Char).1.kind)
          (Option.some.inj h)).symm

theorem tryTable_kind {ps : List LexPat} {prev : Option Char}
    {cs : List Char} {t : Token} {rest : List Char}
    (h : tryTable ps prev cs = some (t, rest)) :
    t.kind ∈ ps.map patKind := by
  induction ps with
  | nil => exact Option.noConfusion h
  | cons p ps ih =>
    unfold tryTable at h
    cases hr : runPat p prev cs with
    | some r =>
      rw [hr] at h
      have h2 := Option.some.inj h
      have h3 := runPat_kind (h2 ▸ hr)
      rw [List.map_cons, h3]
      exact List.mem_cons_self _ _
    | none =>
      rw [hr] at h
      exact List.mem_cons_of_mem _ (ih h)

theorem matchID_kind {cs : List Char} {t : Token} {rest : List Char}
    (h : matchID cs = some (t, rest)) : t.kind = "ID" := by
  simp only [matchID] at h
  repeat' split at h
  all_goals
    first
    | exact Option.noConfusion h
    | exact (congrArg (fun x => (x : Token × List Char).1.kind)
        (Option.some.inj h)).symm

theorem matchFLOAT_kind {cs : List Char} {t : Token} {rest : List Char}
    (h : matchFLOAT cs = some (t, rest)) : t.kind = "FLOAT" := by
  simp only [matchFLOAT] at h
  repeat' split at h
  all_goals
    first
    | exact Option.noConfusion h
    | exact (congrArg (fun x => (x : Token × List Char).1.kind)
        (Option.some.inj h)).symm

theorem matchINTEGER_val {cs : List Char} {t : Token} {rest : List Char}
    (h : matchINTEGER cs = some (t, rest)) :
    t.kind = "INTEGER" ∧ ∃ n : Nat, t.val = .int (Int.ofNat n) := by
  simp only [matchINTEGER] at h
  repeat' split at h
  · exact Option.noConfusion h
  · refine ⟨(congrArg (fun x => (x : Token × List Char).1.kind)
      (Option.some.inj h)).symm, ⟨_, (congrArg
      (fun x => (x : Token × List Char).1.val) (Option.some.inj h)).symm⟩⟩

theorem matchQuoted_kind {q : Char} {cs : List Char} {t : Token}
    {rest : List Char} (h : matchQuoted q cs = some (t, rest)) :
    t.kind = "STRING" := by
  simp only [matchQuoted] at h
  repeat' split at h
  all_goals
    first
    | exact Option.noConfusion h
    | exact (congrArg (fun x => (x : Token × List Char).1.kind)
        (Option.some.inj h)).symm

theorem matchSTRING_kind {cs : List Char} {t : Token} {rest : List Char}
    (h : matchSTRING cs = some (t, rest)) : t.kind = "STRING" := by
  unfold matchSTRING at h
  cases h1 : matchQuoted '"' cs with
  | some r =>
    rw [h1] at h
    exact matchQuoted_kind ((Option.some.inj h) ▸ h1)
  | none =>
    rw [h1] at h
    exact matchQuoted_kind h

theorem nextToken_integer_val {prev : Option Char} {cs : List Char}
    {t : Token} {rest : List Char}
    (h : nextToken lexTable prev cs = some (t, rest))
    (hk : t.kind = "INTEGER") : ∃ n : Nat, t.val = .int (Int.ofNat n) := by
  unfold nextToken at h
  cases h1 : tryTable lexTable prev cs with
  | some r =>
    rw [h1] at h
    have h3 := tryTable_kind ((Option.some.inj h) ▸ h1)
    rw [hk] at h3
    exact absurd h3 (by decide)
  | none =>
    rw [h1] at h
    cases h2 : matchID cs with
    | some r =>
      rw [h2] at h
      have h4 := matchID_kind ((Option.some.inj h) ▸ h2)
      rw [hk] at h4
      exact absurd h4 (by decide)
    | none =>
      rw [h2] at h
      cases h5 : matchFLOAT cs with
      | some r =>
        rw [h5] at h
        have h6 := matchFLOAT_kind ((Option.some.inj h) ▸ h5)
        rw [hk] at h6
        exact absurd h6 (by decide)
      | none =>
        rw [h5] at h
        cases h7 : matchINTEGER cs with
        | some r =>
          rw [h7] at h
          exact (matchINTEGER_val ((Option.some.inj h) ▸ h7)).2
        | none =>
          rw [h7] at h
          have h8 := matchSTRING_kind h
          rw [hk] at h8
          exact absurd h8 (by decide)

theorem tokenizeAux_int {fuel : Nat} :
    ∀ (prev : Option Char) (cs : List Char) (ts : List Token),
    tokenizeAux lexTable fuel prev cs = .ok ts →
    ∀ t ∈ ts, t.kind = "INTEGER" → ∃ n : Nat, t.val = .int (Int.ofNat n) := by
  induction fuel with
  | zero =>
    intro prev cs ts h
    exact Except.noConfusion h
  | succ fuel ih =>
    intro prev cs ts h
    cases cs with
    | nil =>
      have hts : [] = ts := Except.ok.inj h
      subst hts
      intro t ht
      exact absurd ht (List.not_mem_nil t)
    | cons c rest =>
      unfold tokenizeAux at h
      split at h
      · exact ih (some c) rest ts h
      · split at h
        · next tok rest2 hnt =>
          split at h
          · next ts2 hrec =>
            have hts : tok :: ts2 = ts := Except.ok.inj h
            subst hts
            intro t ht hk
            rcases List.mem_cons.mp ht with rfl | hmem
            · exact nextToken_integer_val hnt hk
            · exact ih _ _ _ hrec t hmem hk
          · exact Except.noConfusion h
        · exact Except.noConfusion h

/-- C10: no negative numeric literals.  Every `INTEGER` token the lexer
produces carries a non-negative value (`\d+` is unsigned and `-` is its own
`MINUS` token), and `SELECT -5` parses as a unary `-` applied to
`Constant(5)`, not as `Constant(-5)`. -/
theorem claim_C10_nonneg_integers :
    (∀ (s : String) (ts : List Token), tokenize lexTable s = .ok ts →
      ∀ t ∈ ts, t.kind = "INTEGER" → ∃ z : Int, t.val = .int z ∧ 0 ≤ z) ∧
    parseSql "SELECT -5" =
      .ok { targets := [.unop "-" (.const (.int 5) none false)
              none false] } := by
  constructor
  · intro s ts h t ht hk
    obtain ⟨n, hn⟩ :=
      @tokenizeAux_int (s.length + 1) none s.toList ts h t ht hk
    exact ⟨Int.ofNat n, hn, Int.natCast_nonneg n⟩
  · rfl

/-- Witness for C10: the token produced from input `7` is an `INTEGER`
token with non-negative value. -/
theorem claim_C10_witness :
    ∃ z : Int, (Token.mk "INTEGER" "7" (.int 7)).val = .int z ∧ 0 ≤ z :=
  claim_C10_nonneg_integers.1 "7" [Token.mk "INTEGER" "7" (.int 7)] rfl
    (Token.mk "INTEGER" "7" (.int 7)) (List.mem_singleton.mpr rfl) rfl
